import Mathlib

/-!
Shallow embedding of the orchestration-engine core of the `pdb` repository
(backend/core): pValues_pure.py, Activity_pure.py, InstantiatedAct_pure.py,
ContextActivity_pure.py, Efficience_pure.py, OrchestrationGraph_pure.py.

Python floats are modelled as `ℚ`.  The only genuinely irrational operation,
`math.sqrt` (used by `pVal.distance_onlyForward`), is abstracted as an explicit
parameter `sq : ℚ → ℚ` threaded through every definition that measures a
distance; every structural theorem below holds for an arbitrary `sq`, and
concrete witnesses instantiate `sq` with a specific computable function.

Python lists are modelled as `List`; Python's negative-index access and
`list.insert` clamping semantics are modelled explicitly (`pyGet`,
`pyInsert`).  An uncaught `IndexError` is modelled by an `Option` result
(`none`).
-/

/-- pValues_pure.py: `PRECISION = 0.01`. -/
def PRECISION : ℚ := 1/100

/-- pValues_pure.py: `THRESHOLD = 0.05` (the same value is re-declared in
Efficience_pure.py). -/
def THRESHOLD : ℚ := 1/20

/-- pValues_pure.py: `linInterp(mi, ma, val)`. -/
def linInterp (mi ma val : ℚ) : ℚ :=
  if ma - mi < 1/10000000 then 0 else (val - mi) / (ma - mi)

/-- pValues_pure.py: class `pVal`, a tuple of floats. -/
structure pVal where
  v : List ℚ
deriving DecidableEq

/-- `pVal.needToReach`: component-wise maximum of self and other. -/
def pVal.needToReach (a b : pVal) : pVal :=
  ⟨(a.v.zip b.v).map fun p => max p.1 p.2⟩

/-- `pVal.plus`: component-wise sum. -/
def pVal.plus (a b : pVal) : pVal :=
  ⟨(a.v.zip b.v).map fun p => p.1 + p.2⟩

/-- `pVal.minus`: component-wise difference. -/
def pVal.minus (a b : pVal) : pVal :=
  ⟨(a.v.zip b.v).map fun p => p.1 - p.2⟩

/-- `pVal.times`: scalar multiplication. -/
def pVal.times (a : pVal) (c : ℚ) : pVal :=
  ⟨a.v.map fun x => x * c⟩

/-- `pVal.isPast`: `self >= other` in all dimensions, with tolerance
`PRECISION` (the source returns `False` as soon as
`self.v[i] + PRECISION < other.v[i]`). -/
def pVal.isPast (a b : pVal) : Bool :=
  (a.v.zip b.v).all fun p => !(p.1 + PRECISION < p.2)

/-- `pVal.distance2_onlyForward`: squared distance over the dimensions where
self < other only. -/
def pVal.distance2_onlyForward (a b : pVal) : ℚ :=
  (a.v.zip b.v).foldl (fun som p => if p.1 < p.2 then som + (p.1 - p.2)^2 else som) 0

/-- `pVal.distance_onlyForward`: `math.sqrt` applied to
`distance2_onlyForward`; the square root is the abstract parameter `sq`. -/
def pVal.distance_onlyForward (sq : ℚ → ℚ) (a b : pVal) : ℚ :=
  sq (a.distance2_onlyForward b)

/-- pValues_pure.py: class `InterPVal` (time-interpolated effect). -/
structure InterPVal where
  minEffect : pVal
  maxEffect : pVal
  minT : ℚ
  maxT : ℚ
  defT : ℚ
deriving DecidableEq

/-- `InterPVal.get(time)`: constant curve when `maxT == minT`, otherwise
linear interpolation with the factor clamped into `[0, 1]`. -/
def InterPVal.get (ip : InterPVal) (time : ℚ) : pVal :=
  if ip.maxT = ip.minT then ip.maxEffect
  else
    let l := max 0 (min 1 (linInterp ip.minT ip.maxT time))
    ⟨(ip.minEffect.v.zip ip.maxEffect.v).map fun p => p.1 + l * (p.2 - p.1)⟩

/-- `InterPVal.default()`: the effect at the default duration (the source
caches `self.defEffect = self.get(defT)` in the constructor; the cache always
equals `get defT` because the structure is immutable). -/
def InterPVal.defaultEffect (ip : InterPVal) : pVal :=
  ip.get ip.defT

/-- Activity_pure.py: class `ActivityData` (an activity template).  Print-only
string fields (description, explanation, sources, llm prompt) are omitted;
CSV parsing is out of scope for the claims. -/
structure ActivityData where
  idx : ℕ
  name : String
  pcond : pVal
  peffect : InterPVal
  minT : ℚ
  maxT : ℚ
  defT : ℚ
  canChangeTime : Bool
  maxRepetition : ℤ
  defPlane : ℕ
deriving DecidableEq

/-- Activity_pure.py: class `Library` (the activity catalog). -/
structure Library where
  activities : List ActivityData
deriving DecidableEq

/-- `Library.getLength`. -/
def Library.getLength (lib : Library) : ℕ :=
  lib.activities.length

/-- `Library.getActData(idx)`: returns the template, or `None` when the index
is out of range. -/
def Library.getActData (lib : Library) (idx : ℕ) : Option ActivityData :=
  lib.activities[idx]?

/-- `Library.addActivity`: sets the new template's `idx` to the current
length, appends it, and returns the new index. -/
def Library.addActivity (lib : Library) (a : ActivityData) : ℕ × Library :=
  let newIdx := lib.activities.length
  (newIdx, ⟨lib.activities ++ [{ a with idx := newIdx }]⟩)

/-- InstantiatedAct_pure.py: class `InstantiatedActData` (one timeline
entry). -/
structure InstantiatedActData where
  actData : ActivityData
  time : ℚ
  plane : ℕ
  startsAfter : ℚ
  pValStart : pVal
  pValEnd : pVal
deriving DecidableEq

/-- The `InstantiatedActData` constructor: advance the start state to the
prerequisite when it is not already met, then apply the effect at the chosen
duration. -/
def InstantiatedActData.make (actData : ActivityData) (time : ℚ) (plane : ℕ)
    (startsAfter : ℚ) (pValStart : pVal) : InstantiatedActData :=
  let s := if pValStart.isPast actData.pcond then pValStart
           else pValStart.needToReach actData.pcond
  { actData := actData
    time := time
    plane := plane
    startsAfter := startsAfter
    pValStart := s
    pValEnd := s.plus (actData.peffect.get time) }

/-- `InstantiatedActData.adjust`: recompute the derived fields from a new
cumulative start time and a new upstream state. -/
def InstantiatedActData.adjust (inst : InstantiatedActData)
    (newStartsAfter : ℚ) (newPValStart : pVal) : InstantiatedActData :=
  let s := newPValStart.needToReach inst.actData.pcond
  { inst with
    startsAfter := newStartsAfter
    pValStart := s
    pValEnd := s.plus (inst.actData.peffect.get inst.time) }

/-- `InstantiatedActData.endsAfter`. -/
def InstantiatedActData.endsAfter (inst : InstantiatedActData) : ℚ :=
  inst.startsAfter + inst.time

/-- A junk entry used only as the default of total list indexing
(`List.getD`); every indexed access in the development is in range. -/
def dInst : InstantiatedActData :=
  { actData :=
      { idx := 0, name := "", pcond := ⟨[]⟩,
        peffect := ⟨⟨[]⟩, ⟨[]⟩, 0, 0, 0⟩, minT := 0, maxT := 0, defT := 0,
        canChangeTime := false, maxRepetition := 0, defPlane := 0 },
    time := 0, plane := 0, startsAfter := 0, pValStart := ⟨[]⟩, pValEnd := ⟨[]⟩ }

/-- ContextActivity_pure.py: class `FlagContainer`, built from the list of
string tags collected by `evaluateFor`. -/
structure FlagContainer where
  exhausted : Bool
  tooLong : Bool
  noProgress : Bool
deriving DecidableEq

/-- The `FlagContainer` constructor: membership of the three known tags in
the flag list. -/
def FlagContainer.ofList (l : List String) : FlagContainer :=
  { exhausted := "tooM" ∈ l, tooLong := "long" ∈ l, noProgress := "noProg" ∈ l }

/-- ContextActivity_pure.py: class `ContextActivity` (a scored candidate). -/
structure ContextActivity where
  myActData : ActivityData
  myScore : Option ℚ
  myFlags : FlagContainer
  isBest : Bool
deriving DecidableEq

/-- `ContextActivity.okeyToTake`: no disqualifying flag is set. -/
def ContextActivity.okeyToTake (c : ContextActivity) : Bool :=
  !c.myFlags.noProgress && !c.myFlags.exhausted && !c.myFlags.tooLong

/-- Efficience_pure.py: `distRemoved` — net distance toward the goal removed
by the activity. -/
def distRemoved (fromStartToGoal fromStartToWouldStart fromWouldEndToGoal
    _actTime _remTime _totalRemDistance : ℚ) : ℚ :=
  fromStartToGoal - fromStartToWouldStart - fromWouldEndToGoal

/-- Efficience_pure.py: `distRemoved_over_usedTime` — distance removed per
minute, `0` when the duration is `0`. -/
def distRemoved_over_usedTime (fromStartToGoal fromStartToWouldStart
    fromWouldEndToGoal actTime remTime totalRemDistance : ℚ) : ℚ :=
  let dist := distRemoved fromStartToGoal fromStartToWouldStart fromWouldEndToGoal
    actTime remTime totalRemDistance
  if actTime = 0 then 0 else dist / actTime

/-- Efficience_pure.py: `leftTime_over_leftDist` — the diagnostic ratio.  The
source returns `float('inf')` when the remaining distance falls below the
threshold; the infinity is modelled as `none`. -/
def leftTime_over_leftDist (fromStartToGoal fromStartToWouldStart
    fromWouldEndToGoal actTime remTime totalRemDistance : ℚ) : Option ℚ :=
  let dist := distRemoved fromStartToGoal fromStartToWouldStart fromWouldEndToGoal
    actTime remTime totalRemDistance
  let leftDistance := totalRemDistance - dist
  if leftDistance < THRESHOLD then none
  else
    let timeLeft := remTime - actTime
    if timeLeft ≤ 0 then some 0 else some (timeLeft / leftDistance)

/-- Efficience_pure.py: `getEff` — computes all three heuristics and returns
the primary one (`distRemoved_over_usedTime`). -/
def getEff (fromStartToGoal fromStartToWouldStart fromWouldEndToGoal
    actTime remTime totalRemDistance : ℚ) : ℚ :=
  let dr := distRemoved fromStartToGoal fromStartToWouldStart fromWouldEndToGoal
    actTime remTime totalRemDistance
  let drt := distRemoved_over_usedTime fromStartToGoal fromStartToWouldStart
    fromWouldEndToGoal actTime remTime totalRemDistance
  let ltd := leftTime_over_leftDist fromStartToGoal fromStartToWouldStart
    fromWouldEndToGoal actTime remTime totalRemDistance
  let _ := dr
  let _ := ltd
  drt

/-- Python list access `l[i]` with an `int` index: nonnegative indices are
positional, negative indices wrap once from the end, anything else raises
`IndexError` (modelled as `none`). -/
def pyGet {α : Type} (l : List α) (i : ℤ) : Option α :=
  if 0 ≤ i then l[i.toNat]?
  else if -(l.length : ℤ) ≤ i then l[(l.length + i).toNat]?
  else none

/-- Python `list.insert(i, x)`: the index is clamped — a negative index is
first shifted by the length and then floored at `0`, a large index is capped
at the length.  `list.insert` never raises. -/
def pyInsert {α : Type} (l : List α) (i : ℤ) (x : α) : List α :=
  let idx : ℕ := if i < 0 then (max 0 ((l.length : ℤ) + i)).toNat
                 else min i.toNat l.length
  l.insertIdx idx x

/-- Increment `l[i]` in place; `none` models the `IndexError` raised when the
index is out of range. -/
def listIncr (l : List ℤ) (i : ℕ) : Option (List ℤ) :=
  match l[i]? with
  | none => none
  | some x => some (l.set i (x + 1))

/-- Decrement `l[i]` in place; `none` models the `IndexError` raised when the
index is out of range. -/
def listDecr (l : List ℤ) (i : ℕ) : Option (List ℤ) :=
  match l[i]? with
  | none => none
  | some x => some (l.set i (x - 1))

/-- OrchestrationGraph_pure.py: class `OrchestrationGraphData` — the engine
state.  The catalog reference is modelled as a copy; the aliasing relevant to
catalog growth is modelled explicitly by `growCatalog`. -/
structure OrchestrationGraphData where
  lib : Library
  tBudget : ℚ
  start : pVal
  goal : pVal
  reached : pVal
  listOfFixedInstancedAct : List InstantiatedActData
  quantities : List ℤ
  totTime : ℚ
  hardGapsCount : ℕ
  remainingGapsDistance : ℚ
  hardGapsList : List ℕ
  gapFocus : Option ℤ
  currentListForSelectedGap : List ContextActivity
deriving DecidableEq

namespace OrchestrationGraphData

/-- The `OrchestrationGraphData` constructor (`__init__`): empty timeline,
zeroed usage counts, and the gap cache initialised unconditionally to one gap
at position `0` with the start-to-goal forward distance. -/
def init (sq : ℚ → ℚ) (library : Library) (timeBudget : ℚ)
    (start goal : pVal) : OrchestrationGraphData :=
  { lib := library
    tBudget := timeBudget
    start := start
    goal := goal
    reached := start
    listOfFixedInstancedAct := []
    quantities := List.replicate library.getLength 0
    totTime := 0
    hardGapsCount := 1
    remainingGapsDistance := pVal.distance_onlyForward sq start goal
    hardGapsList := [0]
    gapFocus := none
    currentListForSelectedGap := [] }

/-- The walk inside `reEvaluateData`: adjust every entry to the running state
and cumulative time, returning the final state, the total time and the
adjusted timeline. -/
def reEvalList (cur : pVal) (t : ℚ) :
    List InstantiatedActData → pVal × ℚ × List InstantiatedActData
  | [] => (cur, t, [])
  | inst :: rest =>
    let inst2 := inst.adjust t cur
    let r := reEvalList inst2.pValEnd (t + inst2.time) rest
    (r.1, r.2.1, inst2 :: r.2.2)

/-- The core of `evaluate_gaps`: the position-0 check, the loop over
consecutive pairs, and the final check against the goal, accumulating the gap
list and the total distance exactly as the source does. -/
def gapsCalc (sq : ℚ → ℚ) (start goal : pVal) :
    List InstantiatedActData → List ℕ × ℚ
  | [] =>
    let distance := pVal.distance_onlyForward sq start goal
    if THRESHOLD < distance then ([0], distance) else ([], 0)
  | first :: rest =>
    let full := first :: rest
    let d0 := pVal.distance_onlyForward sq start first.actData.pcond
    let acc0 : List ℕ × ℚ := if THRESHOLD < d0 then ([0], d0) else ([], 0)
    let accMid := (List.range (full.length - 1)).foldl
      (fun acc i =>
        let d := pVal.distance_onlyForward sq (full.getD i dInst).pValEnd
          (full.getD (i + 1) dInst).actData.pcond
        if THRESHOLD < d then (acc.1 ++ [i + 1], acc.2 + d) else acc)
      acc0
    let dEnd := pVal.distance_onlyForward sq
      ((full.getLast?).getD dInst).pValEnd goal
    if THRESHOLD < dEnd then (accMid.1 ++ [full.length], accMid.2 + dEnd)
    else accMid

/-- `evaluate_gaps`: store the recomputed gap list, count and distance. -/
def evaluate_gaps (sq : ℚ → ℚ) (g : OrchestrationGraphData) :
    OrchestrationGraphData :=
  let p := gapsCalc sq g.start g.goal g.listOfFixedInstancedAct
  { g with
    hardGapsList := p.1
    hardGapsCount := p.1.length
    remainingGapsDistance := p.2 }

/-- `reEvaluateData`: walk the timeline from the start state, update the
reached state and the elapsed time, then recompute the gaps. -/
def reEvaluateData (sq : ℚ → ℚ) (g : OrchestrationGraphData) :
    OrchestrationGraphData :=
  let r := reEvalList g.start 0 g.listOfFixedInstancedAct
  evaluate_gaps sq
    { g with
      listOfFixedInstancedAct := r.2.2
      reached := r.1
      totTime := r.2.1 }

/-- The per-position forward distance recomputed by `autoAdd` for every gap
position: start to first prerequisite (or to the goal on an empty timeline)
at position `0`, last end state to the goal at position `length`, and
predecessor end to successor prerequisite in between (list-level form). -/
def gapDistanceCalc (sq : ℚ → ℚ) (start goal : pVal)
    (tl : List InstantiatedActData) (gapIdx : ℕ) : ℚ :=
  if gapIdx = 0 then
    if tl.length = 0 then pVal.distance_onlyForward sq start goal
    else pVal.distance_onlyForward sq start (tl.getD 0 dInst).actData.pcond
  else if gapIdx = tl.length then
    pVal.distance_onlyForward sq ((tl.getLast?).getD dInst).pValEnd goal
  else
    pVal.distance_onlyForward sq (tl.getD (gapIdx - 1) dInst).pValEnd
      (tl.getD gapIdx dInst).actData.pcond

/-- The same per-position distance read off an engine. -/
def gapDistance (sq : ℚ → ℚ) (g : OrchestrationGraphData) (gapIdx : ℕ) : ℚ :=
  gapDistanceCalc sq g.start g.goal g.listOfFixedInstancedAct gapIdx

end OrchestrationGraphData

namespace OrchestrationGraphData

/-- The state immediately before an insertion position in `evaluateFor`:
`start` at position `0`, the predecessor's end state when the position is
within the timeline (a Python negative index wraps), `reached` past the
end. -/
def currentStateAt (g : OrchestrationGraphData) (position : ℤ) : Option pVal :=
  if position = 0 then some g.start
  else if position ≤ (g.listOfFixedInstancedAct.length : ℤ) then
    (pyGet g.listOfFixedInstancedAct (position - 1)).map (·.pValEnd)
  else some g.reached

/-- The requirement immediately after an insertion position in
`evaluateFor`: the successor's prerequisite, or the goal at the end. -/
def nextPrecondAt (g : OrchestrationGraphData) (position : ℤ) : Option pVal :=
  if position < (g.listOfFixedInstancedAct.length : ℤ) then
    (pyGet g.listOfFixedInstancedAct position).map (·.actData.pcond)
  else some g.goal

/-- `evaluateFor(actIdx, position)`: flags, the progress check, and the
efficiency score.  `none` models both a `None` return (unknown template) and
an uncaught `IndexError` (usage-count or timeline lookup out of range). -/
def evaluateFor (sq : ℚ → ℚ) (g : OrchestrationGraphData) (actIdx : ℕ)
    (position : ℤ) : Option ContextActivity :=
  match g.lib.getActData actIdx with
  | none => none
  | some actData =>
    match g.quantities[actIdx]?, g.currentStateAt position,
        g.nextPrecondAt position with
    | some q, some currentState, some nextPrecond =>
      let flags0 : List String :=
        if actData.maxRepetition ≤ q then ["tooM"] else []
      let remainingTime := g.tBudget - g.totTime
      let flags1 : List String :=
        if remainingTime < actData.defT then flags0 ++ ["long"] else flags0
      let stateAfterPrereqs := currentState.needToReach actData.pcond
      let effect := actData.peffect.defaultEffect
      let stateAfterActivity := stateAfterPrereqs.plus effect
      let distBefore := pVal.distance_onlyForward sq currentState nextPrecond
      let distAfter := pVal.distance_onlyForward sq stateAfterActivity nextPrecond
      if distBefore - 1/1000 ≤ distAfter then
        some { myActData := actData, myScore := none,
               myFlags := FlagContainer.ofList (flags1 ++ ["noProg"]),
               isBest := false }
      else
        let distToNext := pVal.distance_onlyForward sq currentState nextPrecond
        let distToStart := pVal.distance_onlyForward sq currentState stateAfterPrereqs
        let distEndToNext := pVal.distance_onlyForward sq stateAfterActivity nextPrecond
        let score := getEff distToNext distToStart distEndToNext actData.defT
          remainingTime g.remainingGapsDistance
        some { myActData := actData, myScore := some score,
               myFlags := FlagContainer.ofList flags1, isBest := false }
    | _, _, _ => none

/-- First component of the Python `sort_key`: `-1` for a non-takeable
candidate, `0` for a takeable candidate without a score, `1` otherwise. -/
def sortKey1 (c : ContextActivity) : ℤ :=
  if !c.okeyToTake then -1
  else match c.myScore with
       | none => 0
       | some _ => 1

/-- Second component of the Python `sort_key`: the score in the scored tier,
`0` otherwise. -/
def sortKey2 (c : ContextActivity) : ℚ :=
  if !c.okeyToTake then 0
  else match c.myScore with
       | none => 0
       | some s => s

/-- The order used by `setGapFocus`'s `sort(key=sort_key, reverse=True)`:
`a` comes before `b` when `a`'s key is lexicographically at least `b`'s.
A stable sort with this order is exactly Python's stable descending sort. -/
def candBefore (a b : ContextActivity) : Prop :=
  sortKey1 b < sortKey1 a ∨ (sortKey1 b = sortKey1 a ∧ sortKey2 b ≤ sortKey2 a)

instance : DecidableRel candBefore := fun a b => by
  unfold candBefore; infer_instance

instance : IsTotal ContextActivity candBefore := by
  constructor
  intro a b
  unfold candBefore
  rcases lt_trichotomy (sortKey1 a) (sortKey1 b) with h | h | h
  · exact Or.inr (Or.inl h)
  · rcases le_total (sortKey2 b) (sortKey2 a) with h2 | h2
    · exact Or.inl (Or.inr ⟨h.symm, h2⟩)
    · exact Or.inr (Or.inr ⟨h, h2⟩)
  · exact Or.inl (Or.inl h)

instance : IsTrans ContextActivity candBefore := by
  constructor
  intro a b c hab hbc
  unfold candBefore at hab hbc ⊢
  rcases hab with h1 | ⟨h1, h2⟩ <;> rcases hbc with h3 | ⟨h3, h4⟩
  · exact Or.inl (lt_trans h3 h1)
  · left
    rw [h3]
    exact h1
  · left
    rw [← h1]
    exact h3
  · exact Or.inr ⟨h3.trans h1, h4.trans h2⟩

/-- The loop after the sort in `setGapFocus`: mark the first takeable, scored
candidate as best. -/
def markBest : List ContextActivity → List ContextActivity
  | [] => []
  | c :: rest =>
    if c.okeyToTake && c.myScore.isSome then { c with isBest := true } :: rest
    else c :: markBest rest

/-- `setGapFocus(gapIndex)`: record the focus; for a negative index clear
the candidate cache, otherwise evaluate every catalog template at the
position (dropping `None` results), sort descending by the sort key (stable,
like Python's sort), and mark the best candidate. -/
def setGapFocus (sq : ℚ → ℚ) (g : OrchestrationGraphData) (gapIndex : ℤ) :
    OrchestrationGraphData :=
  if gapIndex < 0 then
    { g with gapFocus := some gapIndex, currentListForSelectedGap := [] }
  else
    let evaluations := (List.range g.lib.getLength).filterMap
      (fun actIdx => evaluateFor sq g actIdx gapIndex)
    let sorted := evaluations.insertionSort candBefore
    { g with gapFocus := some gapIndex,
             currentListForSelectedGap := markBest sorted }

/-- `insert(actIdx, position, plane, time)`: fail on an unknown template,
resolve the provisional state at the insertion point (Python's negative-index
semantics; an `IndexError` is `none`), insert the new entry, bump the usage
count and recompute.  The returned `Bool` is the source's return value. -/
def insert (sq : ℚ → ℚ) (g : OrchestrationGraphData) (actIdx : ℕ)
    (position : ℤ) (plane? : Option ℕ) (time? : Option ℚ) :
    Option (Bool × OrchestrationGraphData) :=
  match g.lib.getActData actIdx with
  | none => some (false, g)
  | some actData =>
    let plane := plane?.getD actData.defPlane
    let time := time?.getD actData.defT
    let n := g.listOfFixedInstancedAct.length
    let resolved : Option (pVal × ℚ × ℤ) :=
      if position = 0 then some (g.start, 0, 0)
      else if position ≤ (n : ℤ) then
        (pyGet g.listOfFixedInstancedAct (position - 1)).map
          (fun prevAct => (prevAct.pValEnd, prevAct.endsAfter, position))
      else
        match g.listOfFixedInstancedAct.getLast? with
        | some lastAct => some (lastAct.pValEnd, lastAct.endsAfter, (n : ℤ))
        | none => some (g.start, 0, (n : ℤ))
    match resolved with
    | none => none
    | some (currentState, startsAfter, pos) =>
      let inst := InstantiatedActData.make actData time plane startsAfter currentState
      let tl2 := pyInsert g.listOfFixedInstancedAct pos inst
      match listIncr g.quantities actIdx with
      | none => none
      | some q2 =>
        some (true, reEvaluateData sq
          { g with listOfFixedInstancedAct := tl2, quantities := q2 })

/-- `remove(position)`: fail on an out-of-range position, otherwise delete
the entry, decrement its template's usage count and recompute. -/
def remove (sq : ℚ → ℚ) (g : OrchestrationGraphData) (position : ℤ) :
    Option (Bool × OrchestrationGraphData) :=
  if position < 0 ∨ (g.listOfFixedInstancedAct.length : ℤ) ≤ position then
    some (false, g)
  else
    match g.listOfFixedInstancedAct[position.toNat]? with
    | none => none
    | some inst =>
      let tl2 := g.listOfFixedInstancedAct.eraseIdx position.toNat
      match listDecr g.quantities inst.actData.idx with
      | none => none
      | some q2 =>
        some (true, reEvaluateData sq
          { g with listOfFixedInstancedAct := tl2, quantities := q2 })

/-- `exchange(posA, posB)`: fail when either position is out of range,
otherwise swap the two entries (both read before either write, as in the
Python tuple assignment) and recompute. -/
def exchange (sq : ℚ → ℚ) (g : OrchestrationGraphData) (posA posB : ℤ) :
    Option (Bool × OrchestrationGraphData) :=
  let n := g.listOfFixedInstancedAct.length
  if posA < 0 ∨ (n : ℤ) ≤ posA then some (false, g)
  else if posB < 0 ∨ (n : ℤ) ≤ posB then some (false, g)
  else
    match g.listOfFixedInstancedAct[posA.toNat]?,
        g.listOfFixedInstancedAct[posB.toNat]? with
    | some va, some vb =>
      let tl2 := (g.listOfFixedInstancedAct.set posA.toNat vb).set posB.toNat va
      some (true, reEvaluateData sq { g with listOfFixedInstancedAct := tl2 })
    | _, _ => none

/-- `reset()`: clear the timeline, the usage counts and the focus state, then
recompute the gaps (the source calls `evaluate_gaps` directly). -/
def reset (sq : ℚ → ℚ) (g : OrchestrationGraphData) : OrchestrationGraphData :=
  evaluate_gaps sq
    { g with
      listOfFixedInstancedAct := []
      quantities := List.replicate g.lib.getLength 0
      totTime := 0
      reached := g.start
      gapFocus := none
      currentListForSelectedGap := [] }

/-- The worst-gap selection loop of `autoAdd`: fold over `hardGapsList`
keeping the first position whose recomputed distance strictly exceeds the
best seen so far, starting from index `0` and distance `0.0`. -/
def worstGapFold (sq : ℚ → ℚ) (g : OrchestrationGraphData) : ℕ × ℚ :=
  g.hardGapsList.foldl
    (fun acc gapIdx =>
      let distance := gapDistance sq g gapIdx
      if acc.2 < distance then (gapIdx, distance) else acc)
    (0, 0)

/-- `autoAdd()`: fail when the gap count is zero; otherwise pick the worst
gap, focus it, take the first takeable scored candidate of the sorted list,
and insert its template at the worst position (failing when there is no such
candidate). -/
def autoAdd (sq : ℚ → ℚ) (g : OrchestrationGraphData) :
    Option (Bool × OrchestrationGraphData) :=
  if g.hardGapsCount = 0 then some (false, g)
  else
    let worstGapIdx := (worstGapFold sq g).1
    let g1 := setGapFocus sq g (worstGapIdx : ℤ)
    match g1.currentListForSelectedGap.find?
        (fun ctx => ctx.okeyToTake && ctx.myScore.isSome) with
    | none => some (false, g1)
    | some bestActivity =>
      insert sq g1 bestActivity.myActData.idx (worstGapIdx : ℤ) none none

/-- Models `Library.addActivity` performed on the catalog object an engine
holds a reference to: the engine sees the grown catalog, and nothing touches
its `quantities`. -/
def growCatalog (g : OrchestrationGraphData) (a : ActivityData) :
    OrchestrationGraphData :=
  { g with lib := (g.lib.addActivity a).2 }

end OrchestrationGraphData

/-- The mutation-invariant data of a timeline entry: its template, chosen
duration and plane.  `reEvaluateData` rewrites every derived field but
preserves exactly this triple. -/
def entryCore (i : InstantiatedActData) : ActivityData × ℚ × ℕ :=
  (i.actData, i.time, i.plane)

/-- A candidate with its transient `isBest` marker cleared; `markBest` and
the candidate order only depend on the stripped value. -/
def stripBest (c : ContextActivity) : ContextActivity :=
  { c with isBest := false }

/-- The number of timeline entries instantiated from template index `i`. -/
def countTemplate (tl : List InstantiatedActData) (i : ℕ) : ℤ :=
  (tl.countP (fun inst => inst.actData.idx == i) : ℤ)

/-- The usage-count invariant: one counter per catalog slot, each equal to
the number of timeline entries carrying that template index. -/
def UsageInv (g : OrchestrationGraphData) : Prop :=
  g.quantities.length = g.lib.getLength ∧
  ∀ i, i < g.lib.getLength →
    g.quantities[i]? = some (countTemplate g.listOfFixedInstancedAct i)

/-- The catalog invariant `catalog[i].id == i` (maintained by the CSV loader
and by `addActivity`). -/
def LibWF (lib : Library) : Prop :=
  ∀ (i : ℕ) (a : ActivityData), lib.activities[i]? = some a → a.idx = i

/-- The gap cache is consistent with the timeline: the state any engine is
in right after `reEvaluateData` (hence after every successful mutation). -/
def GapConsistent (sq : ℚ → ℚ) (g : OrchestrationGraphData) : Prop :=
  g.hardGapsList = (List.range (g.listOfFixedInstancedAct.length + 1)).filter
    (fun p => decide (THRESHOLD < OrchestrationGraphData.gapDistance sq g p)) ∧
  g.hardGapsCount = g.hardGapsList.length

/-- A concrete stand-in for the abstract square root, used only to
instantiate witnesses and counterexamples; every structural theorem below is
proved for an arbitrary `sq`. -/
def sqW : ℚ → ℚ := fun q => q

/-- A concrete fixed-duration template: no prerequisite, constant effect
`(0.2, 0.2)`, default duration `15`, at most `2` repetitions. -/
def act0 : ActivityData :=
  { idx := 0, name := "A", pcond := ⟨[0, 0]⟩,
    peffect := ⟨⟨[1/5, 1/5]⟩, ⟨[1/5, 1/5]⟩, 15, 15, 15⟩,
    minT := 15, maxT := 15, defT := 15, canChangeTime := false,
    maxRepetition := 2, defPlane := 0 }

/-- A one-template catalog. -/
def lib1 : Library := ⟨[act0]⟩

/-- A fresh engine over `lib1`: start `(0,0)`, goal `(0.9, 0.9)`,
budget `120`. -/
def eng0 : OrchestrationGraphData :=
  OrchestrationGraphData.init sqW lib1 120 ⟨[0, 0]⟩ ⟨[9/10, 9/10]⟩

/-- A fresh engine whose start already equals its goal. -/
def eng00 : OrchestrationGraphData :=
  OrchestrationGraphData.init sqW lib1 120 ⟨[1/2, 1/2]⟩ ⟨[1/2, 1/2]⟩

/-- A second template, used to grow the catalog. -/
def actNew : ActivityData := { act0 with name := "B" }

section HelperLemmas

open OrchestrationGraphData

theorem entryCore_adjust (inst : InstantiatedActData) (t : ℚ) (s : pVal) :
    entryCore (inst.adjust t s) = entryCore inst := rfl

theorem entryCore_make (actData : ActivityData) (time : ℚ) (plane : ℕ)
    (sa : ℚ) (ps : pVal) :
    entryCore (InstantiatedActData.make actData time plane sa ps)
      = (actData, time, plane) := rfl

theorem reEvalList_map_entryCore (cur : pVal) (t : ℚ)
    (l : List InstantiatedActData) :
    ((reEvalList cur t l).2.2).map entryCore = l.map entryCore := by
  induction l generalizing cur t with
  | nil => rfl
  | cons inst rest ih =>
    simp only [reEvalList, List.map_cons, entryCore_adjust]
    exact congrArg _ (ih _ _)

theorem adjust_congr (a b : InstantiatedActData) (t : ℚ) (s : pVal)
    (h : entryCore a = entryCore b) : a.adjust t s = b.adjust t s := by
  cases a; cases b
  simp only [entryCore, Prod.mk.injEq] at h
  obtain ⟨h1, h2, h3⟩ := h
  simp [InstantiatedActData.adjust, h1, h2, h3]

theorem reEvalList_congr (cur : pVal) (t : ℚ)
    (l1 l2 : List InstantiatedActData)
    (h : l1.map entryCore = l2.map entryCore) :
    reEvalList cur t l1 = reEvalList cur t l2 := by
  induction l1 generalizing l2 cur t with
  | nil =>
    cases l2 with
    | nil => rfl
    | cons b bs => simp at h
  | cons a as ih =>
    cases l2 with
    | nil => simp at h
    | cons b bs =>
      simp only [List.map_cons, List.cons.injEq] at h
      have hab : a.adjust t cur = b.adjust t cur := adjust_congr a b t cur h.1
      simp only [reEvalList, hab]
      rw [ih _ _ _ h.2]

theorem map_insertIdx_comm {α β : Type} (f : α → β) (x : α) :
    ∀ (n : ℕ) (l : List α),
      (l.insertIdx n x).map f = (l.map f).insertIdx n (f x)
  | 0, l => rfl
  | n + 1, [] => rfl
  | n + 1, a :: l => by
    simp only [List.insertIdx_succ_cons, List.map_cons]
    rw [map_insertIdx_comm f x n l]

theorem map_eraseIdx_comm {α β : Type} (f : α → β) :
    ∀ (n : ℕ) (l : List α), (l.eraseIdx n).map f = (l.map f).eraseIdx n
  | 0, [] => rfl
  | 0, _ :: _ => rfl
  | n + 1, [] => rfl
  | n + 1, a :: l => by
    simp only [List.eraseIdx_cons_succ, List.map_cons]
    rw [map_eraseIdx_comm f n l]

theorem getElem?_insertIdx_self {α : Type} (x : α) :
    ∀ (n : ℕ) (l : List α), n ≤ l.length → (l.insertIdx n x)[n]? = some x
  | 0, l, _ => by rw [List.insertIdx_zero]; exact List.getElem?_cons_zero
  | n + 1, [], h => by simp at h
  | n + 1, a :: l, h => by
    simp only [List.insertIdx_succ_cons, List.getElem?_cons_succ]
    exact getElem?_insertIdx_self x n l (by simpa using h)

theorem reEvaluateData_lib (sq : ℚ → ℚ) (g : OrchestrationGraphData) :
    (reEvaluateData sq g).lib = g.lib := rfl

theorem reEvaluateData_quantities (sq : ℚ → ℚ) (g : OrchestrationGraphData) :
    (reEvaluateData sq g).quantities = g.quantities := rfl

theorem reEvaluateData_tBudget (sq : ℚ → ℚ) (g : OrchestrationGraphData) :
    (reEvaluateData sq g).tBudget = g.tBudget := rfl

theorem reEvaluateData_start (sq : ℚ → ℚ) (g : OrchestrationGraphData) :
    (reEvaluateData sq g).start = g.start := rfl

theorem reEvaluateData_goal (sq : ℚ → ℚ) (g : OrchestrationGraphData) :
    (reEvaluateData sq g).goal = g.goal := rfl

theorem reEvaluateData_gapFocus (sq : ℚ → ℚ) (g : OrchestrationGraphData) :
    (reEvaluateData sq g).gapFocus = g.gapFocus := rfl

theorem reEvaluateData_timeline (sq : ℚ → ℚ) (g : OrchestrationGraphData) :
    (reEvaluateData sq g).listOfFixedInstancedAct =
      (reEvalList g.start 0 g.listOfFixedInstancedAct).2.2 := rfl

end HelperLemmas

/-- C7: the efficiency score returned by `getEff` equals exactly
`(distToTarget - distToOwnStart - distEndToTarget) / duration`, and `0` when
the duration is `0`; the secondary ratio (including its saturation to
infinity) never affects the returned score — in particular the result does
not depend on `remTime` or `totalRemDistance` at all. -/
theorem getEff_primary_heuristic_only (a b c t r d : ℚ) :
    getEff a b c t r d = (if t = 0 then 0 else (a - b - c) / t) ∧
    ∀ r2 d2 : ℚ, getEff a b c t r d = getEff a b c t r2 d2 := by
  constructor
  · simp only [getEff, distRemoved_over_usedTime, distRemoved]
  · intro r2 d2
    simp only [getEff, distRemoved_over_usedTime, distRemoved]

/-- C5: every mutation operation is all-or-nothing — `insert` with a template
id that is not in the catalog, `remove` with an out-of-range position, and
`exchange` with either position out of range return the failure value `False`
and leave the entire engine state exactly as it was. -/
theorem mutations_fail_atomically (sq : ℚ → ℚ) (g : OrchestrationGraphData)
    (actIdx : ℕ) (position posA posB : ℤ) (plane? : Option ℕ)
    (time? : Option ℚ) :
    (g.lib.getActData actIdx = none →
      OrchestrationGraphData.insert sq g actIdx position plane? time?
        = some (false, g)) ∧
    (position < 0 ∨ (g.listOfFixedInstancedAct.length : ℤ) ≤ position →
      OrchestrationGraphData.remove sq g position = some (false, g)) ∧
    ((posA < 0 ∨ (g.listOfFixedInstancedAct.length : ℤ) ≤ posA) ∨
        (posB < 0 ∨ (g.listOfFixedInstancedAct.length : ℤ) ≤ posB) →
      OrchestrationGraphData.exchange sq g posA posB = some (false, g)) := by
  refine ⟨fun h => ?_, fun h => ?_, fun h => ?_⟩
  · simp [OrchestrationGraphData.insert, h]
  · simp [OrchestrationGraphData.remove, h]
  · rcases h with h | h
    · simp [OrchestrationGraphData.exchange, h]
    · by_cases hA : posA < 0 ∨ (g.listOfFixedInstancedAct.length : ℤ) ≤ posA
      · simp [OrchestrationGraphData.exchange, hA]
      · simp [OrchestrationGraphData.exchange, hA, h]

/-- Witness for C5 at a concrete engine: template id `5` is unknown in the
one-template catalog, and `-3`, `0`, `7` are out of range on the empty
timeline. -/
theorem mutations_fail_atomically_witness :
    (OrchestrationGraphData.insert sqW eng0 5 (-3) none none = some (false, eng0)) ∧
    (OrchestrationGraphData.remove sqW eng0 (-3) = some (false, eng0)) ∧
    (OrchestrationGraphData.exchange sqW eng0 0 7 = some (false, eng0)) := by
  have h := mutations_fail_atomically sqW eng0 5 (-3) 0 7 none none
  refine ⟨h.1 ?_, h.2.1 ?_, h.2.2 ?_⟩
  · norm_num [eng0, OrchestrationGraphData.init, lib1, Library.getActData]
  · exact Or.inl (by norm_num)
  · exact Or.inl (Or.inr (by norm_num [eng0, OrchestrationGraphData.init]))

/-- C6 counterexample: growing the catalog under a live engine leaves the
engine's `quantities` at its old length (`1`), while the catalog now has
length `2` — the claimed zero-filled resize never happens. -/
theorem addActivity_no_resize_counterexample :
    (eng0.growCatalog actNew).quantities.length = 1 ∧
    (eng0.growCatalog actNew).lib.getLength = 2 ∧
    (eng0.growCatalog actNew).quantities.length ≠
      (eng0.growCatalog actNew).lib.getLength := by
  norm_num [OrchestrationGraphData.growCatalog, Library.addActivity, eng0,
    lib1, act0, actNew, OrchestrationGraphData.init, Library.getLength]

/-- C6 amended: `len(usageCounts) == catalog.length` holds at engine
construction, but `Library.addActivity` performed on the catalog an engine
holds does NOT resize the engine's usage counts — the engine keeps its old
`quantities` while the catalog grows by one, so the invariant is broken until
a new engine is constructed over the grown catalog. -/
theorem usageCounts_init_length_and_no_resize_on_growth (sq : ℚ → ℚ)
    (lib : Library) (tB : ℚ) (s gl : pVal) (a : ActivityData) :
    (OrchestrationGraphData.init sq lib tB s gl).quantities.length
      = lib.getLength ∧
    ∀ g : OrchestrationGraphData,
      (g.growCatalog a).quantities = g.quantities ∧
      (g.growCatalog a).lib.getLength = g.lib.getLength + 1 := by
  refine ⟨by simp [OrchestrationGraphData.init], fun g => ⟨rfl, ?_⟩⟩
  simp [OrchestrationGraphData.growCatalog, Library.addActivity,
    Library.getLength]

/-- C9: a freshly constructed engine reports exactly one hard gap at position
`0` with the start-to-goal forward distance, unconditionally; the first gap
recomputation on the same empty timeline (here via `reset`) reports zero gaps
whenever that distance is at or below the threshold — construction does not
apply the hard-gap threshold. -/
theorem init_gap_cache_skips_threshold (sq : ℚ → ℚ) (lib : Library) (tB : ℚ)
    (s gl : pVal) :
    (OrchestrationGraphData.init sq lib tB s gl).hardGapsCount = 1 ∧
    (OrchestrationGraphData.init sq lib tB s gl).hardGapsList = [0] ∧
    (OrchestrationGraphData.init sq lib tB s gl).remainingGapsDistance
      = pVal.distance_onlyForward sq s gl ∧
    (pVal.distance_onlyForward sq s gl ≤ THRESHOLD →
      (OrchestrationGraphData.reset sq
          (OrchestrationGraphData.init sq lib tB s gl)).hardGapsList = [] ∧
      (OrchestrationGraphData.reset sq
          (OrchestrationGraphData.init sq lib tB s gl)).hardGapsCount = 0 ∧
      (OrchestrationGraphData.reset sq
          (OrchestrationGraphData.init sq lib tB s gl)).remainingGapsDistance
        = 0) := by
  refine ⟨rfl, rfl, rfl, fun h => ?_⟩
  have hn : ¬ THRESHOLD < pVal.distance_onlyForward sq s gl := not_lt.mpr h
  refine ⟨?_, ?_, ?_⟩ <;>
    simp [OrchestrationGraphData.reset, OrchestrationGraphData.evaluate_gaps,
      OrchestrationGraphData.gapsCalc, OrchestrationGraphData.init, hn]

/-- Witness for C9: with start = goal = `(0.5, 0.5)` the construction-time
distance is `0 ≤ 0.05`, the fresh cache still says one gap at `0`, and the
first recomputation clears it. -/
theorem init_gap_cache_skips_threshold_witness :
    (OrchestrationGraphData.init sqW lib1 120 ⟨[1/2, 1/2]⟩ ⟨[1/2, 1/2]⟩).hardGapsCount = 1 ∧
    (OrchestrationGraphData.init sqW lib1 120 ⟨[1/2, 1/2]⟩ ⟨[1/2, 1/2]⟩).hardGapsList = [0] ∧
    (OrchestrationGraphData.init sqW lib1 120 ⟨[1/2, 1/2]⟩ ⟨[1/2, 1/2]⟩).remainingGapsDistance
      = pVal.distance_onlyForward sqW ⟨[1/2, 1/2]⟩ ⟨[1/2, 1/2]⟩ ∧
    ((OrchestrationGraphData.reset sqW
        (OrchestrationGraphData.init sqW lib1 120 ⟨[1/2, 1/2]⟩ ⟨[1/2, 1/2]⟩)).hardGapsList = [] ∧
      (OrchestrationGraphData.reset sqW
        (OrchestrationGraphData.init sqW lib1 120 ⟨[1/2, 1/2]⟩ ⟨[1/2, 1/2]⟩)).hardGapsCount = 0 ∧
      (OrchestrationGraphData.reset sqW
        (OrchestrationGraphData.init sqW lib1 120 ⟨[1/2, 1/2]⟩ ⟨[1/2, 1/2]⟩)).remainingGapsDistance = 0) := by
  have h := init_gap_cache_skips_threshold sqW lib1 120 ⟨[1/2, 1/2]⟩ ⟨[1/2, 1/2]⟩
  exact ⟨h.1, h.2.1, h.2.2.1, h.2.2.2 (by norm_num [pVal.distance_onlyForward,
    pVal.distance2_onlyForward, sqW, THRESHOLD])⟩

theorem listIncr_eq_of_lt (l : List ℤ) (i : ℕ) (h : i < l.length) :
    listIncr l i = some (l.set i (l.getD i 0 + 1)) := by
  have hg : l[i]? = some l[i] := List.getElem?_eq_getElem h
  have hd : l.getD i 0 = l[i] := by
    rw [List.getD_eq_getElem?_getD, hg]; rfl
  simp [listIncr, hg, hd]

theorem insert_spec (sq : ℚ → ℚ) (g : OrchestrationGraphData) (actIdx : ℕ)
    (position : ℤ) (plane? : Option ℕ) (time? : Option ℚ)
    (actData : ActivityData)
    (hA : g.lib.getActData actIdx = some actData)
    (hQ : actIdx < g.quantities.length) (hpos : 0 ≤ position) :
    ∃ inst : InstantiatedActData,
      entryCore inst
        = (actData, time?.getD actData.defT, plane?.getD actData.defPlane) ∧
      OrchestrationGraphData.insert sq g actIdx position plane? time? =
        some (true, OrchestrationGraphData.reEvaluateData sq
          { g with
            listOfFixedInstancedAct :=
              g.listOfFixedInstancedAct.insertIdx
                (min position.toNat g.listOfFixedInstancedAct.length) inst
            quantities :=
              g.quantities.set actIdx (g.quantities.getD actIdx 0 + 1) }) := by
  have hinc := listIncr_eq_of_lt g.quantities actIdx hQ
  by_cases hp0 : position = 0
  · subst hp0
    refine ⟨InstantiatedActData.make actData (time?.getD actData.defT)
      (plane?.getD actData.defPlane) 0 g.start, rfl, ?_⟩
    simp [OrchestrationGraphData.insert, hA, hinc, pyInsert]
  · by_cases hple : position ≤ (g.listOfFixedInstancedAct.length : ℤ)
    · have hpos1 : (0 : ℤ) ≤ position - 1 := by omega
      have hlt : (position - 1).toNat < g.listOfFixedInstancedAct.length := by
        omega
      have hget :
          g.listOfFixedInstancedAct[(position - 1).toNat]?
            = some (g.listOfFixedInstancedAct[(position - 1).toNat]) :=
        List.getElem?_eq_getElem hlt
      have hpy : pyGet g.listOfFixedInstancedAct (position - 1)
          = some (g.listOfFixedInstancedAct[(position - 1).toNat]) := by
        simp [pyGet, hpos1, hget]
      have hmin : min position.toNat g.listOfFixedInstancedAct.length
          = position.toNat := by omega
      refine ⟨InstantiatedActData.make actData (time?.getD actData.defT)
        (plane?.getD actData.defPlane)
        (g.listOfFixedInstancedAct[(position - 1).toNat]).endsAfter
        (g.listOfFixedInstancedAct[(position - 1).toNat]).pValEnd, rfl, ?_⟩
      simp [OrchestrationGraphData.insert, hA, hinc, hp0, hple, hpy, pyInsert,
        not_lt.mpr hpos, hmin]
    · have hgt : (g.listOfFixedInstancedAct.length : ℤ) < position := by omega
      have hmin : min position.toNat g.listOfFixedInstancedAct.length
          = g.listOfFixedInstancedAct.length := by omega
      cases hlast : g.listOfFixedInstancedAct.getLast? with
      | none =>
        have hnil : g.listOfFixedInstancedAct = [] :=
          List.getLast?_eq_none_iff.mp hlast
        rw [hnil] at hple
        simp only [List.length_nil, Nat.cast_zero] at hple
        refine ⟨InstantiatedActData.make actData (time?.getD actData.defT)
          (plane?.getD actData.defPlane) 0 g.start, rfl, ?_⟩
        simp [OrchestrationGraphData.insert, hA, hinc, hp0, hple, hlast,
          pyInsert, hnil, hmin, List.insertIdx_zero]
      | some lastAct =>
        have hnonneg : ¬ ((g.listOfFixedInstancedAct.length : ℤ) < 0) := by
          omega
        refine ⟨InstantiatedActData.make actData (time?.getD actData.defT)
          (plane?.getD actData.defPlane) lastAct.endsAfter lastAct.pValEnd,
          rfl, ?_⟩
        simp [OrchestrationGraphData.insert, hA, hinc, hp0, hple, hlast,
          pyInsert, hmin, hnonneg, List.insertIdx_length_self]

theorem reEvaluateData_map_entryCore (sq : ℚ → ℚ)
    (g : OrchestrationGraphData) :
    (OrchestrationGraphData.reEvaluateData sq g).listOfFixedInstancedAct.map
        entryCore
      = g.listOfFixedInstancedAct.map entryCore := by
  rw [reEvaluateData_timeline]
  exact reEvalList_map_entryCore _ _ _

/-- C1 counterexample: with a valid template id, `insert` at the negative
position `-1` on a freshly constructed (empty-timeline) engine does not clamp
the position to `0` and succeed — the predecessor lookup
`listOfFixedInstancedAct[position - 1]` raises an uncaught `IndexError`
(modelled as `none`), so the call does not succeed and no entry is placed at
index `0`. -/
theorem insert_negative_position_counterexample :
    OrchestrationGraphData.insert sqW eng0 0 (-1) none none = none := by
  norm_num [OrchestrationGraphData.insert, eng0, lib1, act0,
    OrchestrationGraphData.init, Library.getActData, pyGet, Library.getLength]

/-- C1 (amended): for every `insert` with a template id in the catalog, a
NONNEGATIVE position and the construction invariant
`len(usageCounts) = catalog.length`, the position is clamped into
`[0, length]` (a position greater than the timeline length appends at the
end), the call succeeds, and the new entry ends up at the clamped index.
Negative positions are not clamped to `0`: they follow Python's negative
indexing and can raise `IndexError` (see the counterexample). -/
theorem insert_clamps_nonneg_positions (sq : ℚ → ℚ)
    (g : OrchestrationGraphData) (actIdx : ℕ) (position : ℤ)
    (plane? : Option ℕ) (time? : Option ℚ) (actData : ActivityData)
    (hA : g.lib.getActData actIdx = some actData)
    (hQ : g.quantities.length = g.lib.getLength) (hpos : 0 ≤ position) :
    ∃ g2, OrchestrationGraphData.insert sq g actIdx position plane? time?
        = some (true, g2) ∧
      g2.listOfFixedInstancedAct.length
        = g.listOfFixedInstancedAct.length + 1 ∧
      g2.listOfFixedInstancedAct.map entryCore
        = (g.listOfFixedInstancedAct.map entryCore).insertIdx
            (min position.toNat g.listOfFixedInstancedAct.length)
            (actData, time?.getD actData.defT, plane?.getD actData.defPlane) ∧
      (g2.listOfFixedInstancedAct.map entryCore)[
          min position.toNat g.listOfFixedInstancedAct.length]?
        = some (actData, time?.getD actData.defT,
            plane?.getD actData.defPlane) := by
  have hidx : actIdx < g.lib.activities.length := by
    by_contra hc
    rw [Library.getActData, List.getElem?_eq_none (by omega)] at hA
    exact Option.noConfusion hA
  have hQlt : actIdx < g.quantities.length := by
    rw [hQ, Library.getLength]; exact hidx
  obtain ⟨inst, hcore, heq⟩ :=
    insert_spec sq g actIdx position plane? time? actData hA hQlt hpos
  set idx := min position.toNat g.listOfFixedInstancedAct.length with hidxdef
  have hidxle : idx ≤ g.listOfFixedInstancedAct.length := min_le_right _ _
  have hm := reEvaluateData_map_entryCore sq
    { g with
      listOfFixedInstancedAct := g.listOfFixedInstancedAct.insertIdx idx inst
      quantities := g.quantities.set actIdx (g.quantities.getD actIdx 0 + 1) }
  have hm2 : (OrchestrationGraphData.reEvaluateData sq
      { g with
        listOfFixedInstancedAct := g.listOfFixedInstancedAct.insertIdx idx inst
        quantities := g.quantities.set actIdx (g.quantities.getD actIdx 0 + 1)
      }).listOfFixedInstancedAct.map entryCore
      = (g.listOfFixedInstancedAct.map entryCore).insertIdx idx
          (actData, time?.getD actData.defT, plane?.getD actData.defPlane) := by
    rw [hm]
    show (g.listOfFixedInstancedAct.insertIdx idx inst).map entryCore = _
    rw [map_insertIdx_comm, hcore]
  refine ⟨_, heq, ?_, hm2, ?_⟩
  · have hlen1 : (g.listOfFixedInstancedAct.insertIdx idx inst).length
        = g.listOfFixedInstancedAct.length + 1 :=
      List.length_insertIdx idx _ hidxle
    have hlen2 := congrArg List.length hm2
    simp only [List.length_map] at hlen2
    rw [hlen2, List.length_insertIdx]
    · simp
    · simpa using hidxle
  · rw [hm2]
    exact getElem?_insertIdx_self _ idx _ (by simpa using hidxle)

/-- Witness for the amended C1: inserting template `0` at position `5` on the
empty timeline of `eng0` clamps to the end (index `0`), succeeds, and places
the entry there. -/
theorem insert_clamps_nonneg_positions_witness :
    ∃ g2, OrchestrationGraphData.insert sqW eng0 0 5 none none
        = some (true, g2) ∧
      g2.listOfFixedInstancedAct.length
        = eng0.listOfFixedInstancedAct.length + 1 ∧
      g2.listOfFixedInstancedAct.map entryCore
        = (eng0.listOfFixedInstancedAct.map entryCore).insertIdx
            (min (5 : ℤ).toNat eng0.listOfFixedInstancedAct.length)
            (act0, (none : Option ℚ).getD act0.defT,
              (none : Option ℕ).getD act0.defPlane) ∧
      (eng0.listOfFixedInstancedAct.map entryCore).insertIdx
            (min (5 : ℤ).toNat eng0.listOfFixedInstancedAct.length)
            (act0, (none : Option ℚ).getD act0.defT,
              (none : Option ℕ).getD act0.defPlane)
        = g2.listOfFixedInstancedAct.map entryCore := by
  obtain ⟨g2, h1, h2, h3, _⟩ := insert_clamps_nonneg_positions sqW eng0 0 5
    none none act0
    (by norm_num [eng0, OrchestrationGraphData.init, lib1, Library.getActData])
    (by norm_num [eng0, OrchestrationGraphData.init, lib1, Library.getLength])
    (by norm_num)
  exact ⟨g2, h1, h2, h3, h3.symm⟩

theorem gapAcc_foldl (f : ℕ → ℚ) (m : ℕ) (gs : List ℕ) (s : ℚ) :
    (List.range m).foldl
      (fun acc i =>
        if THRESHOLD < f i then (acc.1 ++ [i + 1], acc.2 + f i) else acc)
      (gs, s)
    = (gs ++ ((List.range m).filter
          (fun i => decide (THRESHOLD < f i))).map (· + 1),
       s + (((List.range m).filter
          (fun i => decide (THRESHOLD < f i))).map f).sum) := by
  induction m with
  | zero => simp
  | succ m ih =>
    rw [List.range_succ, List.foldl_append, ih, List.foldl_cons, List.foldl_nil]
    by_cases h : THRESHOLD < f m
    · simp only [h, if_pos, List.filter_append, List.map_append,
        List.sum_append, decide_eq_true_eq, List.filter_cons,
        List.filter_nil, List.map_cons, List.map_nil, List.sum_cons,
        List.sum_nil, List.append_assoc]
      rw [Prod.mk.injEq]
      exact ⟨rfl, by ring⟩
    · simp only [h, if_neg, List.filter_append, List.map_append,
        List.sum_append, decide_eq_true_eq, List.filter_cons,
        List.filter_nil, List.map_nil, List.sum_nil, List.append_nil,
        not_false_iff]

theorem gapAcc_foldl_acc (f : ℕ → ℚ) (m : ℕ) (init : List ℕ × ℚ) :
    (List.range m).foldl
      (fun acc i =>
        if THRESHOLD < f i then (acc.1 ++ [i + 1], acc.2 + f i) else acc)
      init
    = (init.1 ++ ((List.range m).filter
          (fun i => decide (THRESHOLD < f i))).map (· + 1),
       init.2 + (((List.range m).filter
          (fun i => decide (THRESHOLD < f i))).map f).sum) := by
  obtain ⟨gs, s⟩ := init
  exact gapAcc_foldl f m gs s

theorem gapsCalcL_eq_filter (sq : ℚ → ℚ) (start goal : pVal)
    (tl : List InstantiatedActData) :
    OrchestrationGraphData.gapsCalc sq start goal tl
      = ((List.range (tl.length + 1)).filter
           (fun p => decide (THRESHOLD <
             OrchestrationGraphData.gapDistanceCalc sq start goal tl p)),
         (((List.range (tl.length + 1)).filter
           (fun p => decide (THRESHOLD <
             OrchestrationGraphData.gapDistanceCalc sq start goal tl p))).map
           (OrchestrationGraphData.gapDistanceCalc sq start goal tl)).sum) := by
  match tl with
  | [] =>
    have hdd : OrchestrationGraphData.gapDistanceCalc sq start goal [] 0
        = pVal.distance_onlyForward sq start goal := by
      simp [OrchestrationGraphData.gapDistanceCalc]
    by_cases h : THRESHOLD < pVal.distance_onlyForward sq start goal
    · simp [OrchestrationGraphData.gapsCalc, hdd, h, List.range_succ]
    · simp [OrchestrationGraphData.gapsCalc, hdd, h, List.range_succ]
  | first :: rest =>
    have hdd0 : OrchestrationGraphData.gapDistanceCalc sq start goal
        (first :: rest) 0
        = pVal.distance_onlyForward sq start first.actData.pcond := by
      simp [OrchestrationGraphData.gapDistanceCalc]
    have hddend : OrchestrationGraphData.gapDistanceCalc sq start goal
        (first :: rest) (rest.length + 1)
        = pVal.distance_onlyForward sq
            (((first :: rest).getLast?).getD dInst).pValEnd goal := by
      simp [OrchestrationGraphData.gapDistanceCalc]
    have hddmid : ∀ i ∈ List.range rest.length,
        OrchestrationGraphData.gapDistanceCalc sq start goal
          (first :: rest) (i + 1)
        = pVal.distance_onlyForward sq
            ((first :: rest).getD i dInst).pValEnd
            ((first :: rest).getD (i + 1) dInst).actData.pcond := by
      intro i hi
      rw [List.mem_range] at hi
      have h1 : i + 1 ≠ 0 := by omega
      have h2 : i + 1 ≠ (first :: rest).length := by
        simp only [List.length_cons]; omega
      unfold OrchestrationGraphData.gapDistanceCalc
      rw [if_neg h1, if_neg h2]
      simp only [Nat.add_sub_cancel]
    have hrange : List.range ((first :: rest).length + 1)
        = 0 :: ((List.range rest.length).map (· + 1) ++ [rest.length + 1]) := by
      rw [List.length_cons, List.range_succ_eq_map, List.range_succ]
      simp [Nat.succ_eq_add_one]
    rw [hrange]
    rw [List.filter_cons, List.filter_append, List.filter_map]
    rw [List.filter_cons, List.filter_nil]
    have hfiltermid :
        (List.range rest.length).filter
          ((fun p => decide (THRESHOLD <
            OrchestrationGraphData.gapDistanceCalc sq start goal
              (first :: rest) p)) ∘ fun x => x + 1)
        = (List.range rest.length).filter
            (fun i => decide (THRESHOLD < pVal.distance_onlyForward sq
              ((first :: rest).getD i dInst).pValEnd
              ((first :: rest).getD (i + 1) dInst).actData.pcond)) := by
      apply List.filter_congr
      intro i hi
      simp only [Function.comp]
      rw [hddmid i hi]
    rw [hfiltermid]
    have hc : List.map
        (OrchestrationGraphData.gapDistanceCalc sq start goal (first :: rest)
          ∘ fun x => x + 1)
        (List.filter
              (fun i =>
                decide
                  (THRESHOLD <
                    pVal.distance_onlyForward sq ((first :: rest).getD i dInst).pValEnd
                      ((first :: rest).getD (i + 1) dInst).actData.pcond))
              (List.range rest.length))
        = List.map
            (fun i => pVal.distance_onlyForward sq
              ((first :: rest).getD i dInst).pValEnd
              ((first :: rest).getD (i + 1) dInst).actData.pcond)
            (List.filter
              (fun i =>
                decide
                  (THRESHOLD <
                    pVal.distance_onlyForward sq ((first :: rest).getD i dInst).pValEnd
                      ((first :: rest).getD (i + 1) dInst).actData.pcond))
              (List.range rest.length)) := by
      apply List.map_congr_left
      intro i hi
      have hmem : i ∈ List.range rest.length := (List.mem_filter.mp hi).1
      simp only [Function.comp]
      exact hddmid i hmem
    by_cases h0 : THRESHOLD < pVal.distance_onlyForward sq start
      first.actData.pcond
    · by_cases hend : THRESHOLD < pVal.distance_onlyForward sq
        ((first :: rest).getLast?.getD dInst).pValEnd goal
      · simp only [OrchestrationGraphData.gapsCalc, List.length_cons,
          Nat.add_sub_cancel, gapAcc_foldl_acc, hdd0, hddend, h0, hend,
          decide_eq_true_eq, List.map_map, List.map_cons, List.map_append,
          List.sum_cons, List.sum_append, List.map_nil, List.sum_nil,
          if_true, if_false, add_zero]
        simp only [Prod.mk.injEq]
        refine ⟨?_, ?_⟩
        · simp
        · rw [hc]
          try simp only [List.map_nil, List.sum_nil, add_zero, zero_add]
          try ring
          try rfl
      · simp only [OrchestrationGraphData.gapsCalc, List.length_cons,
          Nat.add_sub_cancel, gapAcc_foldl_acc, hdd0, hddend, h0, hend,
          decide_eq_true_eq, List.map_map, List.map_cons, List.map_append,
          List.sum_cons, List.sum_append, List.map_nil, List.sum_nil,
          if_true, if_false, add_zero]
        simp only [Prod.mk.injEq]
        refine ⟨?_, ?_⟩
        · simp
        · rw [hc]
          try simp only [List.map_nil, List.sum_nil, add_zero, zero_add]
          try ring
          try rfl
    · by_cases hend : THRESHOLD < pVal.distance_onlyForward sq
        ((first :: rest).getLast?.getD dInst).pValEnd goal
      · simp only [OrchestrationGraphData.gapsCalc, List.length_cons,
          Nat.add_sub_cancel, gapAcc_foldl_acc, hdd0, hddend, h0, hend,
          decide_eq_true_eq, List.map_map, List.map_cons, List.map_append,
          List.sum_cons, List.sum_append, List.map_nil, List.sum_nil,
          if_true, if_false, add_zero]
        simp only [Prod.mk.injEq]
        refine ⟨?_, ?_⟩
        · simp
        · rw [hc]
          try simp only [List.map_nil, List.sum_nil, add_zero, zero_add]
          try ring
          try rfl
      · simp only [OrchestrationGraphData.gapsCalc, List.length_cons,
          Nat.add_sub_cancel, gapAcc_foldl_acc, hdd0, hddend, h0, hend,
          decide_eq_true_eq, List.map_map, List.map_cons, List.map_append,
          List.sum_cons, List.sum_append, List.map_nil, List.sum_nil,
          if_true, if_false, add_zero]
        simp only [Prod.mk.injEq]
        refine ⟨?_, ?_⟩
        · simp
        · rw [hc]
          try simp only [List.map_nil, List.sum_nil, add_zero, zero_add]
          try ring
          try rfl

/-- C2: after every `reEvaluateData`, the gap state is exactly the threshold
characterization — `hardGapsList` is precisely the ascending list of
insertion positions in `[0, length]` whose forward distance strictly exceeds
`0.05`, `hardGapsCount` is its length, and `remainingGapsDistance` is the sum
of the forward distances over exactly those positions (positions at or below
the threshold contribute zero). -/
theorem reEvaluateData_gap_state_characterization (sq : ℚ → ℚ)
    (g : OrchestrationGraphData) :
    (OrchestrationGraphData.reEvaluateData sq g).hardGapsList
      = (List.range
          ((OrchestrationGraphData.reEvaluateData sq g).listOfFixedInstancedAct.length
            + 1)).filter
          (fun p => decide (THRESHOLD < OrchestrationGraphData.gapDistance sq
            (OrchestrationGraphData.reEvaluateData sq g) p)) ∧
    (OrchestrationGraphData.reEvaluateData sq g).hardGapsCount
      = (OrchestrationGraphData.reEvaluateData sq g).hardGapsList.length ∧
    (OrchestrationGraphData.reEvaluateData sq g).remainingGapsDistance
      = ((OrchestrationGraphData.reEvaluateData sq g).hardGapsList.map
          (OrchestrationGraphData.gapDistance sq
            (OrchestrationGraphData.reEvaluateData sq g))).sum ∧
    (OrchestrationGraphData.reEvaluateData sq g).hardGapsList.Pairwise (· < ·) := by
  have hcalc := gapsCalcL_eq_filter sq g.start g.goal
    (OrchestrationGraphData.reEvalList g.start 0 g.listOfFixedInstancedAct).2.2
  have h1 : (OrchestrationGraphData.reEvaluateData sq g).hardGapsList
      = (OrchestrationGraphData.gapsCalc sq g.start g.goal
          (OrchestrationGraphData.reEvalList g.start 0
            g.listOfFixedInstancedAct).2.2).1 := rfl
  have h2 : (OrchestrationGraphData.reEvaluateData sq g).remainingGapsDistance
      = (OrchestrationGraphData.gapsCalc sq g.start g.goal
          (OrchestrationGraphData.reEvalList g.start 0
            g.listOfFixedInstancedAct).2.2).2 := rfl
  have hgd : OrchestrationGraphData.gapDistance sq
      (OrchestrationGraphData.reEvaluateData sq g)
      = OrchestrationGraphData.gapDistanceCalc sq g.start g.goal
          (OrchestrationGraphData.reEvalList g.start 0
            g.listOfFixedInstancedAct).2.2 := rfl
  refine ⟨?_, rfl, ?_, ?_⟩
  · rw [h1, hcalc, hgd]
    try rfl
  · rw [h2, hcalc, h1, hcalc, hgd]
    try rfl
  · rw [h1, hcalc]
    exact (List.pairwise_lt_range _).filter _

theorem currentStateAt_some (g : OrchestrationGraphData) (position : ℤ)
    (hpos : 0 ≤ position) :
    ∃ cs, g.currentStateAt position = some cs := by
  unfold OrchestrationGraphData.currentStateAt
  by_cases h0 : position = 0
  · exact ⟨g.start, by simp [h0]⟩
  · by_cases hle : position ≤ (g.listOfFixedInstancedAct.length : ℤ)
    · have h1 : (0 : ℤ) ≤ position - 1 := by omega
      have h2 : position.toNat - 1 < g.listOfFixedInstancedAct.length := by
        omega
      refine ⟨(g.listOfFixedInstancedAct[position.toNat - 1]).pValEnd, ?_⟩
      simp [h0, hle, pyGet, h1, List.getElem?_eq_getElem h2]
    · exact ⟨g.reached, by simp [h0, hle]⟩

theorem nextPrecondAt_some (g : OrchestrationGraphData) (position : ℤ)
    (hpos : 0 ≤ position) :
    ∃ np, g.nextPrecondAt position = some np := by
  unfold OrchestrationGraphData.nextPrecondAt
  by_cases hlt : position < (g.listOfFixedInstancedAct.length : ℤ)
  · have h2 : position.toNat < g.listOfFixedInstancedAct.length := by omega
    refine ⟨(g.listOfFixedInstancedAct[position.toNat]).actData.pcond, ?_⟩
    simp [hlt, pyGet, hpos, List.getElem?_eq_getElem h2]
  · exact ⟨g.goal, by simp [hlt]⟩

/-- C4: for every evaluation of a catalog template at a nonnegative position,
`exhausted` is set iff `usageCounts[templateId] >= maxRepetition`, `tooLong`
iff the default duration exceeds `timeBudget - totalElapsed`, `noProgress`
iff `projectedEnd.forwardDistance(target) >= currentState.forwardDistance(target) - 0.001`;
the score is absent exactly when `noProgress` is set, and the candidate is
takeable iff none of the three flags is set. -/
theorem evaluateFor_flag_semantics (sq : ℚ → ℚ) (g : OrchestrationGraphData)
    (actIdx : ℕ) (position : ℤ) (actData : ActivityData) (q : ℤ)
    (hA : g.lib.getActData actIdx = some actData)
    (hq : g.quantities[actIdx]? = some q) (hpos : 0 ≤ position) :
    ∃ cs np ctx,
      g.currentStateAt position = some cs ∧
      g.nextPrecondAt position = some np ∧
      OrchestrationGraphData.evaluateFor sq g actIdx position = some ctx ∧
      ctx.myActData = actData ∧
      (ctx.myFlags.exhausted = true ↔ actData.maxRepetition ≤ q) ∧
      (ctx.myFlags.tooLong = true ↔ g.tBudget - g.totTime < actData.defT) ∧
      (ctx.myFlags.noProgress = true ↔
        pVal.distance_onlyForward sq cs np - 1/1000 ≤
          pVal.distance_onlyForward sq
            ((cs.needToReach actData.pcond).plus
              actData.peffect.defaultEffect) np) ∧
      (ctx.myScore = none ↔ ctx.myFlags.noProgress = true) ∧
      (ctx.okeyToTake = true ↔ (ctx.myFlags.exhausted = false ∧
        ctx.myFlags.tooLong = false ∧ ctx.myFlags.noProgress = false)) := by
  obtain ⟨cs, hcs⟩ := currentStateAt_some g position hpos
  obtain ⟨np, hnp⟩ := nextPrecondAt_some g position hpos
  refine ⟨cs, np, ?_⟩
  by_cases hex : actData.maxRepetition ≤ q
  · by_cases hlong : g.tBudget - g.totTime < actData.defT
    · by_cases hnoprog : pVal.distance_onlyForward sq cs np - 1/1000 ≤
        pVal.distance_onlyForward sq
          ((cs.needToReach actData.pcond).plus actData.peffect.defaultEffect) np
      ·
        refine ⟨{
          myActData := actData
          myScore := none
          myFlags := ⟨true, true, true⟩
          isBest := false }, hcs, hnp, ?_, rfl,
          by simpa using hex, by simpa using hlong, by simpa using hnoprog,
          by simp, by simp [ContextActivity.okeyToTake]⟩
        simp only [OrchestrationGraphData.evaluateFor, hA, hq, hcs, hnp]
        rw [if_pos hex, if_pos hlong, if_pos hnoprog]
        simp [FlagContainer.ofList]
      ·
        refine ⟨{
          myActData := actData
          myScore := some (getEff (pVal.distance_onlyForward sq cs np)
              (pVal.distance_onlyForward sq cs (cs.needToReach actData.pcond))
              (pVal.distance_onlyForward sq
                ((cs.needToReach actData.pcond).plus
                  actData.peffect.defaultEffect) np)
              actData.defT (g.tBudget - g.totTime) g.remainingGapsDistance)
          myFlags := ⟨true, true, false⟩
          isBest := false }, hcs, hnp, ?_, rfl,
          by simpa using hex, by simpa using hlong, by simpa using hnoprog,
          by simp, by simp [ContextActivity.okeyToTake]⟩
        simp only [OrchestrationGraphData.evaluateFor, hA, hq, hcs, hnp]
        rw [if_pos hex, if_pos hlong, if_neg hnoprog]
        simp [FlagContainer.ofList]
    · by_cases hnoprog : pVal.distance_onlyForward sq cs np - 1/1000 ≤
        pVal.distance_onlyForward sq
          ((cs.needToReach actData.pcond).plus actData.peffect.defaultEffect) np
      ·
        refine ⟨{
          myActData := actData
          myScore := none
          myFlags := ⟨true, false, true⟩
          isBest := false }, hcs, hnp, ?_, rfl,
          by simpa using hex, by simpa using hlong, by simpa using hnoprog,
          by simp, by simp [ContextActivity.okeyToTake]⟩
        simp only [OrchestrationGraphData.evaluateFor, hA, hq, hcs, hnp]
        rw [if_pos hex, if_neg hlong, if_pos hnoprog]
        simp [FlagContainer.ofList]
      ·
        refine ⟨{
          myActData := actData
          myScore := some (getEff (pVal.distance_onlyForward sq cs np)
              (pVal.distance_onlyForward sq cs (cs.needToReach actData.pcond))
              (pVal.distance_onlyForward sq
                ((cs.needToReach actData.pcond).plus
                  actData.peffect.defaultEffect) np)
              actData.defT (g.tBudget - g.totTime) g.remainingGapsDistance)
          myFlags := ⟨true, false, false⟩
          isBest := false }, hcs, hnp, ?_, rfl,
          by simpa using hex, by simpa using hlong, by simpa using hnoprog,
          by simp, by simp [ContextActivity.okeyToTake]⟩
        simp only [OrchestrationGraphData.evaluateFor, hA, hq, hcs, hnp]
        rw [if_pos hex, if_neg hlong, if_neg hnoprog]
        simp [FlagContainer.ofList]
  · by_cases hlong : g.tBudget - g.totTime < actData.defT
    · by_cases hnoprog : pVal.distance_onlyForward sq cs np - 1/1000 ≤
        pVal.distance_onlyForward sq
          ((cs.needToReach actData.pcond).plus actData.peffect.defaultEffect) np
      ·
        refine ⟨{
          myActData := actData
          myScore := none
          myFlags := ⟨false, true, true⟩
          isBest := false }, hcs, hnp, ?_, rfl,
          by simpa using hex, by simpa using hlong, by simpa using hnoprog,
          by simp, by simp [ContextActivity.okeyToTake]⟩
        simp only [OrchestrationGraphData.evaluateFor, hA, hq, hcs, hnp]
        rw [if_neg hex, if_pos hlong, if_pos hnoprog]
        simp [FlagContainer.ofList]
      ·
        refine ⟨{
          myActData := actData
          myScore := some (getEff (pVal.distance_onlyForward sq cs np)
              (pVal.distance_onlyForward sq cs (cs.needToReach actData.pcond))
              (pVal.distance_onlyForward sq
                ((cs.needToReach actData.pcond).plus
                  actData.peffect.defaultEffect) np)
              actData.defT (g.tBudget - g.totTime) g.remainingGapsDistance)
          myFlags := ⟨false, true, false⟩
          isBest := false }, hcs, hnp, ?_, rfl,
          by simpa using hex, by simpa using hlong, by simpa using hnoprog,
          by simp, by simp [ContextActivity.okeyToTake]⟩
        simp only [OrchestrationGraphData.evaluateFor, hA, hq, hcs, hnp]
        rw [if_neg hex, if_pos hlong, if_neg hnoprog]
        simp [FlagContainer.ofList]
    · by_cases hnoprog : pVal.distance_onlyForward sq cs np - 1/1000 ≤
        pVal.distance_onlyForward sq
          ((cs.needToReach actData.pcond).plus actData.peffect.defaultEffect) np
      ·
        refine ⟨{
          myActData := actData
          myScore := none
          myFlags := ⟨false, false, true⟩
          isBest := false }, hcs, hnp, ?_, rfl,
          by simpa using hex, by simpa using hlong, by simpa using hnoprog,
          by simp, by simp [ContextActivity.okeyToTake]⟩
        simp only [OrchestrationGraphData.evaluateFor, hA, hq, hcs, hnp]
        rw [if_neg hex, if_neg hlong, if_pos hnoprog]
        simp [FlagContainer.ofList]
      ·
        refine ⟨{
          myActData := actData
          myScore := some (getEff (pVal.distance_onlyForward sq cs np)
              (pVal.distance_onlyForward sq cs (cs.needToReach actData.pcond))
              (pVal.distance_onlyForward sq
                ((cs.needToReach actData.pcond).plus
                  actData.peffect.defaultEffect) np)
              actData.defT (g.tBudget - g.totTime) g.remainingGapsDistance)
          myFlags := ⟨false, false, false⟩
          isBest := false }, hcs, hnp, ?_, rfl,
          by simpa using hex, by simpa using hlong, by simpa using hnoprog,
          by simp, by simp [ContextActivity.okeyToTake]⟩
        simp only [OrchestrationGraphData.evaluateFor, hA, hq, hcs, hnp]
        rw [if_neg hex, if_neg hlong, if_neg hnoprog]
        simp [FlagContainer.ofList]

/-- Witness for C4: evaluating template `0` at position `0` of the fresh
engine `eng0`. -/
theorem evaluateFor_flag_semantics_witness :
    ∃ cs np ctx,
      eng0.currentStateAt 0 = some cs ∧
      eng0.nextPrecondAt 0 = some np ∧
      OrchestrationGraphData.evaluateFor sqW eng0 0 0 = some ctx ∧
      ctx.myActData = act0 ∧
      (ctx.myFlags.exhausted = true ↔ act0.maxRepetition ≤ 0) ∧
      (ctx.myFlags.tooLong = true ↔ eng0.tBudget - eng0.totTime < act0.defT) ∧
      (ctx.myFlags.noProgress = true ↔
        pVal.distance_onlyForward sqW cs np - 1/1000 ≤
          pVal.distance_onlyForward sqW
            ((cs.needToReach act0.pcond).plus act0.peffect.defaultEffect) np) ∧
      (ctx.myScore = none ↔ ctx.myFlags.noProgress = true) ∧
      (ctx.okeyToTake = true ↔ (ctx.myFlags.exhausted = false ∧
        ctx.myFlags.tooLong = false ∧ ctx.myFlags.noProgress = false)) :=
  evaluateFor_flag_semantics sqW eng0 0 0 act0 0
    (by norm_num [eng0, OrchestrationGraphData.init, lib1, Library.getActData])
    (by norm_num [eng0, OrchestrationGraphData.init, lib1, Library.getLength])
    (by norm_num)

theorem countP_insertIdx {α : Type} (p : α → Bool) (x : α) :
    ∀ (n : ℕ) (l : List α), n ≤ l.length →
      (l.insertIdx n x).countP p = l.countP p + if p x then 1 else 0
  | 0, l, _ => by rw [List.insertIdx_zero, List.countP_cons]
  | n + 1, [], h => by simp at h
  | n + 1, a :: l, h => by
    rw [List.insertIdx_succ_cons, List.countP_cons, List.countP_cons,
      countP_insertIdx p x n l (by simpa using h)]
    omega

theorem countP_eraseIdx_add {α : Type} (p : α → Bool) :
    ∀ (n : ℕ) (l : List α) (a : α), l[n]? = some a →
      (l.eraseIdx n).countP p + (if p a then 1 else 0) = l.countP p
  | 0, [], a, h => by simp at h
  | 0, x :: l, a, h => by
    rw [List.getElem?_cons_zero, Option.some.injEq] at h
    subst h
    rw [List.eraseIdx_cons_zero, List.countP_cons]
  | n + 1, [], a, h => by simp at h
  | n + 1, x :: l, a, h => by
    rw [List.getElem?_cons_succ] at h
    rw [List.eraseIdx_cons_succ, List.countP_cons, List.countP_cons,
      ← countP_eraseIdx_add p n l a h]
    omega

theorem countP_set_add {α : Type} (p : α → Bool) :
    ∀ (l : List α) (i : ℕ) (x : α) (a : α), l[i]? = some a →
      (l.set i x).countP p + (if p a then 1 else 0)
        = l.countP p + (if p x then 1 else 0)
  | [], i, x, a, h => by simp at h
  | b :: l, 0, x, a, h => by
    rw [List.getElem?_cons_zero, Option.some.injEq] at h
    subst h
    rw [List.set_cons_zero, List.countP_cons, List.countP_cons]
    omega
  | b :: l, i + 1, x, a, h => by
    rw [List.getElem?_cons_succ] at h
    rw [List.set_cons_succ, List.countP_cons, List.countP_cons]
    have ih := countP_set_add p l i x a h
    omega

theorem countTemplate_congr (l1 l2 : List InstantiatedActData)
    (h : l1.map entryCore = l2.map entryCore) (i : ℕ) :
    countTemplate l1 i = countTemplate l2 i := by
  have key : ∀ l : List InstantiatedActData,
      l.countP (fun inst => inst.actData.idx == i)
        = (l.map entryCore).countP (fun c => c.1.idx == i) := by
    intro l
    rw [List.countP_map]
    rfl
  unfold countTemplate
  rw [key l1, key l2, h]

theorem pyInsert_idx_le {α : Type} (l : List α) (i : ℤ) :
    (if i < 0 then (max 0 ((l.length : ℤ) + i)).toNat
     else min i.toNat l.length) ≤ l.length := by
  by_cases h : i < 0
  · simp only [if_pos h]
    omega
  · simp [h]

theorem countTemplate_pyInsert (l : List InstantiatedActData) (i : ℤ)
    (x : InstantiatedActData) (j : ℕ) :
    countTemplate (pyInsert l i x) j
      = countTemplate l j + if x.actData.idx = j then 1 else 0 := by
  unfold countTemplate pyInsert
  rw [countP_insertIdx _ _ _ _ (pyInsert_idx_le l i)]
  by_cases h : x.actData.idx = j <;> simp [h]

theorem insert_tail_inv (sq : ℚ → ℚ) (g : OrchestrationGraphData)
    (actIdx : ℕ) (actData : ActivityData) (time : ℚ) (plane : ℕ)
    (res : Option (pVal × ℚ × ℤ)) (g2 : OrchestrationGraphData)
    (h : (match res with
          | none => none
          | some (currentState, startsAfter, pos) =>
            let inst := InstantiatedActData.make actData time plane
              startsAfter currentState
            let tl2 := pyInsert g.listOfFixedInstancedAct pos inst
            match listIncr g.quantities actIdx with
            | none => none
            | some q2 =>
              some (true, OrchestrationGraphData.reEvaluateData sq
                { g with
                  listOfFixedInstancedAct := tl2
                  quantities := q2 })) = some (true, g2)) :
    ∃ (pos : ℤ) (inst : InstantiatedActData) (v : ℤ),
      g.quantities[actIdx]? = some v ∧
      g2 = OrchestrationGraphData.reEvaluateData sq
        { g with
          listOfFixedInstancedAct :=
            pyInsert g.listOfFixedInstancedAct pos inst
          quantities := g.quantities.set actIdx (v + 1) } ∧
      inst.actData = actData := by
  rcases res with _ | ⟨cs, sa, pos⟩
  · simp at h
  · rcases hv : g.quantities[actIdx]? with _ | v
    · have hli : listIncr g.quantities actIdx = none := by
        simp [listIncr, hv]
      rw [hli] at h
      have h2 : (none : Option (Bool × OrchestrationGraphData))
          = some (true, g2) := h
      simp at h2
    · have hli : listIncr g.quantities actIdx
          = some (g.quantities.set actIdx (v + 1)) := by
        simp [listIncr, hv]
      rw [hli] at h
      have h2 : some ((true : Bool), OrchestrationGraphData.reEvaluateData sq
          { g with
            listOfFixedInstancedAct := pyInsert g.listOfFixedInstancedAct pos
              (InstantiatedActData.make actData time plane sa cs)
            quantities := g.quantities.set actIdx (v + 1) })
          = some (true, g2) := h
      simp only [Option.some.injEq, Prod.mk.injEq, true_and] at h2
      exact ⟨pos, InstantiatedActData.make actData time plane sa cs, v, rfl,
        h2.symm, rfl⟩

theorem insert_success_inv (sq : ℚ → ℚ) (g : OrchestrationGraphData)
    (actIdx : ℕ) (position : ℤ) (plane? : Option ℕ) (time? : Option ℚ)
    (g2 : OrchestrationGraphData)
    (h : OrchestrationGraphData.insert sq g actIdx position plane? time?
      = some (true, g2)) :
    ∃ (actData : ActivityData) (pos : ℤ) (inst : InstantiatedActData) (v : ℤ),
      g.lib.getActData actIdx = some actData ∧
      g.quantities[actIdx]? = some v ∧
      g2 = OrchestrationGraphData.reEvaluateData sq
        { g with
          listOfFixedInstancedAct :=
            pyInsert g.listOfFixedInstancedAct pos inst
          quantities := g.quantities.set actIdx (v + 1) } ∧
      inst.actData = actData := by
  unfold OrchestrationGraphData.insert at h
  split at h
  · simp at h
  · rename_i actData hA
    obtain ⟨pos, inst, v, hv, hg2, hai⟩ :=
      insert_tail_inv sq g actIdx actData (time?.getD actData.defT)
        (plane?.getD actData.defPlane) _ g2 h
    exact ⟨actData, pos, inst, v, hA, hv, hg2, hai⟩

theorem lt_of_getElem?_eq_some {α : Type} {l : List α} {i : ℕ} {a : α}
    (h : l[i]? = some a) : i < l.length := by
  by_contra hc
  rw [List.getElem?_eq_none (by omega)] at h
  exact Option.noConfusion h

theorem remove_success_inv (sq : ℚ → ℚ) (g : OrchestrationGraphData)
    (position : ℤ) (g2 : OrchestrationGraphData)
    (h : OrchestrationGraphData.remove sq g position = some (true, g2)) :
    ∃ (inst : InstantiatedActData) (v : ℤ),
      g.listOfFixedInstancedAct[position.toNat]? = some inst ∧
      g.quantities[inst.actData.idx]? = some v ∧
      g2 = OrchestrationGraphData.reEvaluateData sq
        { g with
          listOfFixedInstancedAct :=
            g.listOfFixedInstancedAct.eraseIdx position.toNat
          quantities := g.quantities.set inst.actData.idx (v - 1) } := by
  unfold OrchestrationGraphData.remove at h
  split at h
  · simp at h
  · rcases hinst : g.listOfFixedInstancedAct[position.toNat]? with _ | inst
    · rw [hinst] at h
      have h2 : (none : Option (Bool × OrchestrationGraphData))
          = some (true, g2) := h
      simp at h2
    · rw [hinst] at h
      have h3 : (match listDecr g.quantities inst.actData.idx with
          | none => (none : Option (Bool × OrchestrationGraphData))
          | some q2 =>
            some (true, OrchestrationGraphData.reEvaluateData sq
              { g with
                listOfFixedInstancedAct :=
                  g.listOfFixedInstancedAct.eraseIdx position.toNat
                quantities := q2 })) = some (true, g2) := h
      rcases hv : g.quantities[inst.actData.idx]? with _ | v
      · have hld : listDecr g.quantities inst.actData.idx = none := by
          simp [listDecr, hv]
        rw [hld] at h3
        have h2 : (none : Option (Bool × OrchestrationGraphData))
            = some (true, g2) := h3
        simp at h2
      · have hld : listDecr g.quantities inst.actData.idx
            = some (g.quantities.set inst.actData.idx (v - 1)) := by
          simp [listDecr, hv]
        rw [hld] at h3
        have h2 : some ((true : Bool), OrchestrationGraphData.reEvaluateData sq
            { g with
              listOfFixedInstancedAct :=
                g.listOfFixedInstancedAct.eraseIdx position.toNat
              quantities := g.quantities.set inst.actData.idx (v - 1) })
            = some (true, g2) := h3
        simp only [Option.some.injEq, Prod.mk.injEq, true_and] at h2
        exact ⟨inst, v, rfl, hv, h2.symm⟩

theorem exchange_success_inv (sq : ℚ → ℚ) (g : OrchestrationGraphData)
    (posA posB : ℤ) (g2 : OrchestrationGraphData)
    (h : OrchestrationGraphData.exchange sq g posA posB = some (true, g2)) :
    ∃ (va vb : InstantiatedActData),
      g.listOfFixedInstancedAct[posA.toNat]? = some va ∧
      g.listOfFixedInstancedAct[posB.toNat]? = some vb ∧
      g2 = OrchestrationGraphData.reEvaluateData sq
        { g with
          listOfFixedInstancedAct :=
            (g.listOfFixedInstancedAct.set posA.toNat vb).set posB.toNat va } := by
  unfold OrchestrationGraphData.exchange at h
  split at h
  · rename_i va vb ha hb
    have h3 : (if posA < 0 ∨ (g.listOfFixedInstancedAct.length : ℤ) ≤ posA
        then some (false, g)
        else if posB < 0 ∨ (g.listOfFixedInstancedAct.length : ℤ) ≤ posB
        then some (false, g)
        else some (true, OrchestrationGraphData.reEvaluateData sq
          { g with
            listOfFixedInstancedAct :=
              (g.listOfFixedInstancedAct.set posA.toNat vb).set posB.toNat
                va })) = some (true, g2) := h
    split at h3
    · simp at h3
    · split at h3
      · simp at h3
      · simp only [Option.some.injEq, Prod.mk.injEq, true_and] at h3
        exact ⟨va, vb, ha, hb, h3.symm⟩
  · have h3 : (if posA < 0 ∨ (g.listOfFixedInstancedAct.length : ℤ) ≤ posA
        then some (false, g)
        else if posB < 0 ∨ (g.listOfFixedInstancedAct.length : ℤ) ≤ posB
        then some (false, g)
        else (none : Option (Bool × OrchestrationGraphData)))
        = some (true, g2) := h
    split at h3
    · simp at h3
    · split at h3
      · simp at h3
      · simp at h3

theorem countTemplate_nonneg (tl : List InstantiatedActData) (i : ℕ) :
    0 ≤ countTemplate tl i := by
  unfold countTemplate
  positivity

theorem countTemplate_eraseIdx (tl : List InstantiatedActData) (k : ℕ)
    (inst : InstantiatedActData) (h : tl[k]? = some inst) (i : ℕ) :
    countTemplate (tl.eraseIdx k) i
      = countTemplate tl i - (if inst.actData.idx = i then 1 else 0) := by
  have key := countP_eraseIdx_add (fun x => x.actData.idx == i) k tl inst h
  unfold countTemplate
  by_cases hid : inst.actData.idx = i
  · simp only [hid, beq_self_eq_true, if_true] at key ⊢
    omega
  · simp only [beq_eq_false_iff_ne, ne_eq, hid, if_false,
      beq_iff_eq] at key ⊢
    omega

theorem countTemplate_swap (tl : List InstantiatedActData) (a b : ℕ)
    (va vb : InstantiatedActData) (ha : tl[a]? = some va)
    (hb : tl[b]? = some vb) (i : ℕ) :
    countTemplate ((tl.set a vb).set b va) i = countTemplate tl i := by
  have hblt : b < tl.length := lt_of_getElem?_eq_some hb
  have hsb : (tl.set a vb)[b]? = some vb := by
    by_cases hab : a = b
    · subst hab
      rw [List.getElem?_set_self (by omega)]
    · rw [List.getElem?_set_ne hab]
      exact hb
  have h1 := countP_set_add (fun x => x.actData.idx == i) tl a vb va ha
  have h2 := countP_set_add (fun x => x.actData.idx == i) (tl.set a vb) b va
    vb hsb
  unfold countTemplate
  omega

theorem usageInv_init (sq : ℚ → ℚ) (lib : Library) (tB : ℚ) (s gl : pVal) :
    UsageInv (OrchestrationGraphData.init sq lib tB s gl) := by
  constructor
  · simp [OrchestrationGraphData.init]
  · intro i hi
    simp only [OrchestrationGraphData.init, Library.getLength] at hi ⊢
    rw [List.getElem?_replicate_of_lt hi]
    simp [countTemplate]

theorem usageInv_reEvaluateData (sq : ℚ → ℚ) (g : OrchestrationGraphData)
    (h : UsageInv g) : UsageInv (OrchestrationGraphData.reEvaluateData sq g) := by
  obtain ⟨h1, h2⟩ := h
  constructor
  · rw [reEvaluateData_quantities, reEvaluateData_lib]
    exact h1
  · intro i hi
    rw [reEvaluateData_lib] at hi
    rw [reEvaluateData_quantities,
      countTemplate_congr _ g.listOfFixedInstancedAct
        (reEvaluateData_map_entryCore sq g) i]
    exact h2 i hi

theorem usageInv_insert (sq : ℚ → ℚ) (g : OrchestrationGraphData)
    (actIdx : ℕ) (position : ℤ) (plane? : Option ℕ) (time? : Option ℚ)
    (g2 : OrchestrationGraphData) (hWf : LibWF g.lib) (hInv : UsageInv g)
    (h : OrchestrationGraphData.insert sq g actIdx position plane? time?
      = some (true, g2)) : UsageInv g2 := by
  obtain ⟨actData, pos, inst, v, hA, hv, hg2, hai⟩ :=
    insert_success_inv sq g actIdx position plane? time? g2 h
  subst hg2
  apply usageInv_reEvaluateData
  obtain ⟨h1, h2⟩ := hInv
  have hidx : actIdx < g.lib.getLength := by
    unfold Library.getActData at hA
    exact lt_of_getElem?_eq_some hA
  have hidxA : actData.idx = actIdx := hWf actIdx actData hA
  constructor
  · simpa using h1
  · intro i hi
    try simp only at hi ⊢
    have hcount := countTemplate_pyInsert g.listOfFixedInstancedAct pos inst i
    rw [hai, hidxA] at hcount
    show (g.quantities.set actIdx (v + 1))[i]? = _
    rw [hcount]
    by_cases hii : i = actIdx
    · have hvv : v = countTemplate g.listOfFixedInstancedAct i := by
        have h3 := h2 i hi
        rw [hii, hv] at h3
        exact Option.some.inj (hii ▸ h3)
      rw [hii] at hvv
      rw [hii, List.getElem?_set_self (by omega)]
      rw [if_pos rfl, hvv]
    · rw [List.getElem?_set_ne (by omega), if_neg (by omega)]
      simpa using h2 i hi

theorem usageInv_remove (sq : ℚ → ℚ) (g : OrchestrationGraphData)
    (position : ℤ) (g2 : OrchestrationGraphData) (hInv : UsageInv g)
    (h : OrchestrationGraphData.remove sq g position = some (true, g2)) :
    UsageInv g2 := by
  obtain ⟨inst, v, hinst, hv, hg2⟩ :=
    remove_success_inv sq g position g2 h
  subst hg2
  apply usageInv_reEvaluateData
  obtain ⟨h1, h2⟩ := hInv
  have hjq : inst.actData.idx < g.quantities.length :=
    lt_of_getElem?_eq_some hv
  constructor
  · simpa using h1
  · intro i hi
    try simp only at hi ⊢
    show (g.quantities.set inst.actData.idx (v - 1))[i]? = _
    rw [countTemplate_eraseIdx g.listOfFixedInstancedAct position.toNat inst
      hinst i]
    by_cases hii : i = inst.actData.idx
    · have hvv : v = countTemplate g.listOfFixedInstancedAct i := by
        have h3 := h2 i hi
        rw [hii, hv] at h3
        exact Option.some.inj (hii ▸ h3)
      rw [hii] at hvv
      rw [hii, List.getElem?_set_self (by omega)]
      rw [if_pos rfl, hvv]
    · rw [List.getElem?_set_ne (by omega), if_neg (by omega)]
      simpa using h2 i hi

theorem usageInv_exchange (sq : ℚ → ℚ) (g : OrchestrationGraphData)
    (posA posB : ℤ) (g2 : OrchestrationGraphData) (hInv : UsageInv g)
    (h : OrchestrationGraphData.exchange sq g posA posB = some (true, g2)) :
    UsageInv g2 := by
  obtain ⟨va, vb, ha, hb, hg2⟩ := exchange_success_inv sq g posA posB g2 h
  subst hg2
  apply usageInv_reEvaluateData
  obtain ⟨h1, h2⟩ := hInv
  constructor
  · simpa using h1
  · intro i hi
    try simp only at hi ⊢
    show g.quantities[i]? = _
    rw [countTemplate_swap g.listOfFixedInstancedAct posA.toNat posB.toNat
      va vb ha hb i]
    exact h2 i hi

theorem usageInv_reset (sq : ℚ → ℚ) (g : OrchestrationGraphData) :
    UsageInv (OrchestrationGraphData.reset sq g) := by
  constructor
  · simp [OrchestrationGraphData.reset, OrchestrationGraphData.evaluate_gaps]
  · intro i hi
    simp only [OrchestrationGraphData.reset,
      OrchestrationGraphData.evaluate_gaps] at hi ⊢
    rw [List.getElem?_replicate_of_lt (by simpa [Library.getLength] using hi)]
    simp [countTemplate]

/-- C10: with a fixed catalog, the invariant "for every template id `i`,
`usageCounts[i]` equals the number of timeline entries whose template has
index `i` (and there is one counter per catalog slot)" holds after
construction and is preserved by every successful `insert` (under the catalog
invariant `catalog[i].id == i`), `remove`, `exchange` and by `reset`; in
particular no count is ever negative. -/
theorem usageCounts_invariant (sq : ℚ → ℚ) :
    (∀ (lib : Library) (tB : ℚ) (s gl : pVal),
      UsageInv (OrchestrationGraphData.init sq lib tB s gl)) ∧
    (∀ (g : OrchestrationGraphData) (actIdx : ℕ) (position : ℤ)
        (plane? : Option ℕ) (time? : Option ℚ) (g2 : OrchestrationGraphData),
      LibWF g.lib → UsageInv g →
      OrchestrationGraphData.insert sq g actIdx position plane? time?
        = some (true, g2) → UsageInv g2) ∧
    (∀ (g : OrchestrationGraphData) (position : ℤ)
        (g2 : OrchestrationGraphData), UsageInv g →
      OrchestrationGraphData.remove sq g position = some (true, g2) →
      UsageInv g2) ∧
    (∀ (g : OrchestrationGraphData) (posA posB : ℤ)
        (g2 : OrchestrationGraphData), UsageInv g →
      OrchestrationGraphData.exchange sq g posA posB = some (true, g2) →
      UsageInv g2) ∧
    (∀ g : OrchestrationGraphData, UsageInv (OrchestrationGraphData.reset sq g)) ∧
    (∀ g : OrchestrationGraphData, UsageInv g →
      ∀ (i : ℕ) (v : ℤ), g.quantities[i]? = some v → 0 ≤ v) := by
  refine ⟨usageInv_init sq, ?_, ?_, ?_, usageInv_reset sq, ?_⟩
  · intro g actIdx position plane? time? g2 hWf hInv h
    exact usageInv_insert sq g actIdx position plane? time? g2 hWf hInv h
  · intro g position g2 hInv h
    exact usageInv_remove sq g position g2 hInv h
  · intro g posA posB g2 hInv h
    exact usageInv_exchange sq g posA posB g2 hInv h
  · intro g hInv i v hv
    obtain ⟨h1, h2⟩ := hInv
    have hlt : i < g.quantities.length := lt_of_getElem?_eq_some hv
    have h3 := h2 i (by omega)
    rw [hv] at h3
    rw [Option.some.inj h3]
    exact countTemplate_nonneg _ _

/-- Witness for C10: the invariant holds on the fresh engine `eng0`, survives
a concrete successful insert of template `0` at position `0`, holds after a
`reset`, and yields nonnegativity of a concrete counter. -/
theorem usageCounts_invariant_witness :
    UsageInv eng0 ∧
    (∃ g2, OrchestrationGraphData.insert sqW eng0 0 0 none none
        = some (true, g2) ∧ UsageInv g2) ∧
    UsageInv (OrchestrationGraphData.reset sqW eng0) ∧
    (0 : ℤ) ≤ 0 := by
  have h := usageCounts_invariant sqW
  have hInv0 : UsageInv eng0 := h.1 lib1 120 ⟨[0, 0]⟩ ⟨[9/10, 9/10]⟩
  refine ⟨hInv0, ?_, h.2.2.2.2.1 eng0, le_refl 0⟩
  have hWf : LibWF eng0.lib := by
    intro i a ha
    have : eng0.lib = lib1 := rfl
    rw [this] at ha
    match i, ha with
    | 0, ha => simp [lib1] at ha; rw [← ha]; rfl
  obtain ⟨inst, hcore, heq⟩ := insert_spec sqW eng0 0 0 none none act0
    (by norm_num [eng0, OrchestrationGraphData.init, lib1, Library.getActData])
    (by norm_num [eng0, OrchestrationGraphData.init, lib1, Library.getLength])
    (by norm_num)
  exact ⟨_, heq, h.2.1 eng0 0 0 none none _ hWf hInv0 heq⟩

theorem reEvaluateData_reached (sq : ℚ → ℚ) (g : OrchestrationGraphData) :
    (OrchestrationGraphData.reEvaluateData sq g).reached
      = (OrchestrationGraphData.reEvalList g.start 0
          g.listOfFixedInstancedAct).1 := rfl

theorem reEvaluateData_totTime (sq : ℚ → ℚ) (g : OrchestrationGraphData) :
    (OrchestrationGraphData.reEvaluateData sq g).totTime
      = (OrchestrationGraphData.reEvalList g.start 0
          g.listOfFixedInstancedAct).2.1 := rfl

theorem reEvaluateData_hardGapsList (sq : ℚ → ℚ) (g : OrchestrationGraphData) :
    (OrchestrationGraphData.reEvaluateData sq g).hardGapsList
      = (OrchestrationGraphData.gapsCalc sq g.start g.goal
          (OrchestrationGraphData.reEvalList g.start 0
            g.listOfFixedInstancedAct).2.2).1 := rfl

theorem remove_spec (sq : ℚ → ℚ) (g : OrchestrationGraphData) (position : ℤ)
    (inst : InstantiatedActData) (v : ℤ) (hpos : 0 ≤ position)
    (hlt : position < (g.listOfFixedInstancedAct.length : ℤ))
    (hinst : g.listOfFixedInstancedAct[position.toNat]? = some inst)
    (hv : g.quantities[inst.actData.idx]? = some v) :
    OrchestrationGraphData.remove sq g position
      = some (true, OrchestrationGraphData.reEvaluateData sq
          { g with
            listOfFixedInstancedAct :=
              g.listOfFixedInstancedAct.eraseIdx position.toNat
            quantities := g.quantities.set inst.actData.idx (v - 1) }) := by
  unfold OrchestrationGraphData.remove
  rw [if_neg (by omega)]
  rw [hinst]
  show (match listDecr g.quantities inst.actData.idx with
    | none => none
    | some q2 =>
      some (true, OrchestrationGraphData.reEvaluateData sq
        { g with
          listOfFixedInstancedAct :=
            g.listOfFixedInstancedAct.eraseIdx position.toNat
          quantities := q2 })) = _
  have hld : listDecr g.quantities inst.actData.idx
      = some (g.quantities.set inst.actData.idx (v - 1)) := by
    simp [listDecr, hv]
  rw [hld]

/-- C8 counterexample: on a freshly constructed engine whose start equals its
goal, `hardGapsList` is `[0]` (construction skips the threshold), but
inserting template `0` at position `0` and removing it again recomputes the
gaps and yields `[]` — the round-trip does not restore `gapPositions`
exactly, although it does restore `reachedState` and `totalElapsed`. -/
theorem insert_remove_roundtrip_counterexample :
    ∃ g1 g2,
      OrchestrationGraphData.insert sqW eng00 0 0 none none = some (true, g1) ∧
      OrchestrationGraphData.remove sqW g1 0 = some (true, g2) ∧
      g2.reached = eng00.reached ∧ g2.totTime = eng00.totTime ∧
      g2.hardGapsList = [] ∧ eng00.hardGapsList = [0] ∧
      g2.hardGapsList ≠ eng00.hardGapsList := by
  norm_num [OrchestrationGraphData.insert, OrchestrationGraphData.remove,
    eng00, lib1, act0, OrchestrationGraphData.init, Library.getActData, pyGet,
    pyInsert, Library.getLength, listIncr, listDecr,
    OrchestrationGraphData.reEvaluateData, OrchestrationGraphData.reEvalList,
    OrchestrationGraphData.evaluate_gaps, OrchestrationGraphData.gapsCalc,
    InstantiatedActData.make, InstantiatedActData.adjust, pVal.isPast,
    pVal.needToReach, pVal.plus, pVal.distance_onlyForward,
    pVal.distance2_onlyForward, InterPVal.get, sqW, THRESHOLD, PRECISION,
    linInterp, dInst]

/-- C8 (amended): for every engine state that is CONSISTENT — a fixpoint of
`reEvaluateData`, which every engine is after construction with a
hard start-to-goal gap and after every mutation — every template id in the
catalog, and every position in `[0, timeline length]`, performing
`insert(templateId, position)` and then `remove(position)` restores
`reachedState`, `totalElapsed` and `gapPositions` exactly.  A freshly
constructed engine whose start-to-goal distance is at or below the threshold
is not consistent, and there the round-trip changes `gapPositions` (see the
counterexample). -/
theorem insert_remove_roundtrip (sq : ℚ → ℚ) (g : OrchestrationGraphData)
    (actIdx : ℕ) (position : ℤ) (plane? : Option ℕ) (time? : Option ℚ)
    (actData : ActivityData)
    (hC : OrchestrationGraphData.reEvaluateData sq g = g)
    (hWf : LibWF g.lib)
    (hQ : g.quantities.length = g.lib.getLength)
    (hA : g.lib.getActData actIdx = some actData)
    (hpos : 0 ≤ position)
    (hle : position ≤ (g.listOfFixedInstancedAct.length : ℤ)) :
    ∃ g1 g2,
      OrchestrationGraphData.insert sq g actIdx position plane? time?
        = some (true, g1) ∧
      OrchestrationGraphData.remove sq g1 position = some (true, g2) ∧
      g2.reached = g.reached ∧ g2.totTime = g.totTime ∧
      g2.hardGapsList = g.hardGapsList := by
  have hQlt : actIdx < g.quantities.length := by
    unfold Library.getActData at hA
    have := lt_of_getElem?_eq_some hA
    rw [hQ, Library.getLength]
    exact this
  obtain ⟨inst, hcore, heq⟩ :=
    insert_spec sq g actIdx position plane? time? actData hA hQlt hpos
  have hmin : min position.toNat g.listOfFixedInstancedAct.length
      = position.toNat := by omega
  rw [hmin] at heq
  set p := position.toNat with hp
  set tl := g.listOfFixedInstancedAct with htl
  set gR : OrchestrationGraphData :=
    { g with
      listOfFixedInstancedAct := tl.insertIdx p inst
      quantities := g.quantities.set actIdx (g.quantities.getD actIdx 0 + 1) }
    with hgR
  have hple : p ≤ tl.length := by omega
  have htl1 : (OrchestrationGraphData.reEvaluateData sq gR).listOfFixedInstancedAct
      = (OrchestrationGraphData.reEvalList g.start 0 (tl.insertIdx p inst)).2.2 := rfl
  have hmap1 : (OrchestrationGraphData.reEvaluateData sq gR).listOfFixedInstancedAct.map entryCore
      = (tl.map entryCore).insertIdx p (entryCore inst) := by
    rw [htl1, reEvalList_map_entryCore, map_insertIdx_comm]
  have hinstA : inst.actData = actData := by
    have : (entryCore inst).1 = actData := by rw [hcore]
    exact this
  have hpin : ∃ inst1, (OrchestrationGraphData.reEvaluateData sq gR).listOfFixedInstancedAct[p]?
      = some inst1 ∧ entryCore inst1 = entryCore inst := by
    have h1 : ((OrchestrationGraphData.reEvaluateData sq gR).listOfFixedInstancedAct.map entryCore)[p]?
        = some (entryCore inst) := by
      rw [hmap1]
      exact getElem?_insertIdx_self _ p _ (by simpa using hple)
    rw [List.getElem?_map] at h1
    rcases Option.map_eq_some'.mp h1 with ⟨inst1, hi1, hi2⟩
    exact ⟨inst1, hi1, hi2⟩
  obtain ⟨inst1, hpin1, hpin2⟩ := hpin
  have hinst1A : inst1.actData = actData := by
    have h : (entryCore inst1).1
        = (actData, time?.getD actData.defT, plane?.getD actData.defPlane).1 := by
      rw [hpin2, hcore]
    exact h
  have hj : inst1.actData.idx = actIdx := by
    rw [hinst1A]
    exact hWf actIdx actData hA
  have hq1 : (OrchestrationGraphData.reEvaluateData sq gR).quantities
      = g.quantities.set actIdx (g.quantities.getD actIdx 0 + 1) := rfl
  have hv1 : (OrchestrationGraphData.reEvaluateData sq gR).quantities[inst1.actData.idx]?
      = some (g.quantities.getD actIdx 0 + 1) := by
    rw [hq1, hj]
    exact List.getElem?_set_self (by simpa using hQlt)
  have hlen1 : (OrchestrationGraphData.reEvaluateData sq gR).listOfFixedInstancedAct.length
      = tl.length + 1 := by
    have h := congrArg List.length hmap1
    simp only [List.length_map] at h
    rw [h, List.length_insertIdx]
    · simp
    · simpa using hple
  have hrem := remove_spec sq (OrchestrationGraphData.reEvaluateData sq gR)
    position inst1 (g.quantities.getD actIdx 0 + 1) hpos
    (by rw [hlen1]; omega) (by rw [← hp]; exact hpin1) hv1
  refine ⟨_, _, heq, hrem, ?_, ?_, ?_⟩
  all_goals
    have hcores : ((OrchestrationGraphData.reEvaluateData sq gR).listOfFixedInstancedAct.eraseIdx
        p).map entryCore = tl.map entryCore := by
      rw [map_eraseIdx_comm, hmap1, List.eraseIdx_insertIdx]
    have hre : OrchestrationGraphData.reEvalList g.start 0
        ((OrchestrationGraphData.reEvaluateData sq gR).listOfFixedInstancedAct.eraseIdx p)
        = OrchestrationGraphData.reEvalList g.start 0 tl :=
      reEvalList_congr _ _ _ _ hcores
  · rw [show ∀ gx : OrchestrationGraphData, gx.reached = gx.reached from fun _ => rfl]
    calc (OrchestrationGraphData.reEvaluateData sq
        { OrchestrationGraphData.reEvaluateData sq gR with
          listOfFixedInstancedAct :=
            (OrchestrationGraphData.reEvaluateData sq gR).listOfFixedInstancedAct.eraseIdx
              position.toNat
          quantities :=
            (OrchestrationGraphData.reEvaluateData sq gR).quantities.set
              inst1.actData.idx
              (g.quantities.getD actIdx 0 + 1 - 1) }).reached
        = (OrchestrationGraphData.reEvalList g.start 0
            ((OrchestrationGraphData.reEvaluateData sq gR).listOfFixedInstancedAct.eraseIdx
              p)).1 := rfl
      _ = (OrchestrationGraphData.reEvalList g.start 0 tl).1 := by rw [hre]
      _ = (OrchestrationGraphData.reEvaluateData sq g).reached := rfl
      _ = g.reached := by rw [hC]
  · calc (OrchestrationGraphData.reEvaluateData sq
        { OrchestrationGraphData.reEvaluateData sq gR with
          listOfFixedInstancedAct :=
            (OrchestrationGraphData.reEvaluateData sq gR).listOfFixedInstancedAct.eraseIdx
              position.toNat
          quantities :=
            (OrchestrationGraphData.reEvaluateData sq gR).quantities.set
              inst1.actData.idx
              (g.quantities.getD actIdx 0 + 1 - 1) }).totTime
        = (OrchestrationGraphData.reEvalList g.start 0
            ((OrchestrationGraphData.reEvaluateData sq gR).listOfFixedInstancedAct.eraseIdx
              p)).2.1 := rfl
      _ = (OrchestrationGraphData.reEvalList g.start 0 tl).2.1 := by rw [hre]
      _ = (OrchestrationGraphData.reEvaluateData sq g).totTime := rfl
      _ = g.totTime := by rw [hC]
  · calc (OrchestrationGraphData.reEvaluateData sq
        { OrchestrationGraphData.reEvaluateData sq gR with
          listOfFixedInstancedAct :=
            (OrchestrationGraphData.reEvaluateData sq gR).listOfFixedInstancedAct.eraseIdx
              position.toNat
          quantities :=
            (OrchestrationGraphData.reEvaluateData sq gR).quantities.set
              inst1.actData.idx
              (g.quantities.getD actIdx 0 + 1 - 1) }).hardGapsList
        = (OrchestrationGraphData.gapsCalc sq g.start g.goal
            (OrchestrationGraphData.reEvalList g.start 0
              ((OrchestrationGraphData.reEvaluateData sq gR).listOfFixedInstancedAct.eraseIdx
                p)).2.2).1 := rfl
      _ = (OrchestrationGraphData.gapsCalc sq g.start g.goal
            (OrchestrationGraphData.reEvalList g.start 0 tl).2.2).1 := by
          rw [hre]
      _ = (OrchestrationGraphData.reEvaluateData sq g).hardGapsList := rfl
      _ = g.hardGapsList := by rw [hC]

/-- Witness for the amended round-trip theorem: a fresh engine with a hard
start-to-goal gap is consistent, and there insert-then-remove at position 0
restores the three observables. -/
theorem insert_remove_roundtrip_witness :
    ∃ g1 g2,
      OrchestrationGraphData.insert sqW eng0 0 0 none none = some (true, g1) ∧
      OrchestrationGraphData.remove sqW g1 0 = some (true, g2) ∧
      g2.reached = eng0.reached ∧ g2.totTime = eng0.totTime ∧
      g2.hardGapsList = eng0.hardGapsList :=
  insert_remove_roundtrip sqW eng0 0 0 none none act0
    (by norm_num [eng0, lib1, act0, OrchestrationGraphData.init,
      OrchestrationGraphData.reEvaluateData, OrchestrationGraphData.reEvalList,
      OrchestrationGraphData.evaluate_gaps, OrchestrationGraphData.gapsCalc,
      pVal.isPast, pVal.needToReach, pVal.plus, pVal.distance_onlyForward,
      pVal.distance2_onlyForward, sqW, THRESHOLD, PRECISION])
    (by
      intro i a ha
      cases i with
      | zero =>
        simp [eng0, OrchestrationGraphData.init, lib1] at ha
        rw [← ha]
        rfl
      | succ n => simp [eng0, OrchestrationGraphData.init, lib1] at ha)
    (by norm_num [eng0, OrchestrationGraphData.init, lib1, Library.getLength])
    (by norm_num [eng0, OrchestrationGraphData.init, lib1, Library.getActData,
      pyGet])
    (by norm_num)
    (by norm_num [eng0, OrchestrationGraphData.init])

section C3Helpers

open OrchestrationGraphData

theorem foldl_worst_spec (d : ℕ → ℚ) (L : List ℕ) (acc r : ℕ × ℚ)
    (hr : r = L.foldl (fun a p => if a.2 < d p then (p, d p) else a) acc) :
    acc.2 ≤ r.2 ∧ (∀ p ∈ L, d p ≤ r.2) ∧
    (r = acc ∨ (r.1 ∈ L ∧ r.2 = d r.1 ∧ acc.2 < r.2)) ∧
    (L.Pairwise (· < ·) → ∀ p ∈ L, d p = r.2 → (r.1 ≤ p ∨ r = acc)) := by
  subst hr
  induction L generalizing acc with
  | nil =>
    refine ⟨le_refl _, by simp, Or.inl rfl, ?_⟩
    intro _ p hp
    simp at hp
  | cons p t ih =>
    rw [List.foldl_cons]
    by_cases hc : acc.2 < d p
    · rw [if_pos hc]
      obtain ⟨ih1, ih2, ih3, ih4⟩ := ih (p, d p)
      refine ⟨le_trans (le_of_lt hc) ih1, ?_, ?_, ?_⟩
      · intro q hq
        rcases List.mem_cons.mp hq with h | h
        · subst h
          exact ih1
        · exact ih2 q h
      · rcases ih3 with he | ⟨h1, h2, h3⟩
        · right
          rw [he]
          exact ⟨List.mem_cons_self p t, rfl, hc⟩
        · right
          exact ⟨List.mem_cons_of_mem p h1, h2, lt_trans hc h3⟩
      · intro hpw q hq hdq
        have hhead := (List.pairwise_cons.mp hpw).1
        rcases List.mem_cons.mp hq with h | h
        · subst h
          rcases ih3 with he | ⟨h1, h2, h3⟩
          · left
            rw [he]
          · exact absurd hdq (ne_of_lt h3)
        · rcases ih4 hpw.of_cons q h hdq with hle | he
          · exact Or.inl hle
          · left
            rw [he]
            exact le_of_lt (hhead q h)
    · rw [if_neg hc]
      obtain ⟨ih1, ih2, ih3, ih4⟩ := ih acc
      refine ⟨ih1, ?_, ?_, ?_⟩
      · intro q hq
        rcases List.mem_cons.mp hq with h | h
        · subst h
          exact le_trans (le_of_not_lt hc) ih1
        · exact ih2 q h
      · rcases ih3 with he | ⟨h1, h2, h3⟩
        · exact Or.inl he
        · exact Or.inr ⟨List.mem_cons_of_mem p h1, h2, h3⟩
      · intro hpw q hq hdq
        rcases List.mem_cons.mp hq with h | h
        · subst h
          rcases ih3 with he | ⟨h1, h2, h3⟩
          · exact Or.inr he
          · exact absurd (show acc.2 < d q by rw [hdq]; exact h3) hc
        · rcases ih4 hpw.of_cons q h hdq with hle | he
          · exact Or.inl hle
          · exact Or.inr he

theorem sortKey1_eq_one (c : ContextActivity) (h1 : c.okeyToTake = true)
    (h2 : c.myScore.isSome = true) : sortKey1 c = 1 := by
  cases hs : c.myScore with
  | none =>
    rw [hs] at h2
    exact absurd h2 (by simp)
  | some s => simp [sortKey1, h1, hs]

theorem candBefore_le (a b : ContextActivity) (hab : candBefore a b)
    (h : sortKey1 a = sortKey1 b) : sortKey2 b ≤ sortKey2 a := by
  rcases hab with h1 | ⟨_, h2⟩
  · exfalso
    omega
  · exact h2

theorem find_sorted_max (l : List ContextActivity) :
    l.Pairwise candBefore →
    ∀ best, l.find? (fun c => c.okeyToTake && c.myScore.isSome) = some best →
    ∀ c ∈ l, (c.okeyToTake && c.myScore.isSome) = true →
      sortKey2 c ≤ sortKey2 best := by
  induction l with
  | nil =>
    intro _ best hf
    simp at hf
  | cons a t ih =>
    intro hl best hf c hc hcp
    by_cases ha : (a.okeyToTake && a.myScore.isSome) = true
    · rw [@List.find?_cons_of_pos _ (fun c => c.okeyToTake && c.myScore.isSome)
        a t ha] at hf
      have hba : a = best := by injection hf
      rcases List.mem_cons.mp hc with h | h
      · subst h
        rw [← hba]
      · have ha2 := ha
        have hcp2 := hcp
        simp only [Bool.and_eq_true] at ha2 hcp2
        obtain ⟨hok1, hsc1⟩ := ha2
        obtain ⟨hok2, hsc2⟩ := hcp2
        have hcb : candBefore a c := (List.pairwise_cons.mp hl).1 c h
        have hk : sortKey1 a = sortKey1 c := by
          rw [sortKey1_eq_one a hok1 hsc1, sortKey1_eq_one c hok2 hsc2]
        rw [← hba]
        exact candBefore_le a c hcb hk
    · rw [@List.find?_cons_of_neg _ (fun c => c.okeyToTake && c.myScore.isSome)
        a t ha] at hf
      rcases List.mem_cons.mp hc with h | h
      · subst h
        exact absurd hcp ha
      · exact ih hl.of_cons best hf c h hcp

theorem okeyToTake_mark (c : ContextActivity) :
    ({ c with isBest := true } : ContextActivity).okeyToTake = c.okeyToTake := rfl

theorem myScore_mark (c : ContextActivity) :
    ({ c with isBest := true } : ContextActivity).myScore = c.myScore := rfl

theorem myActData_mark (c : ContextActivity) :
    ({ c with isBest := true } : ContextActivity).myActData = c.myActData := rfl

theorem sortKey2_mark (c : ContextActivity) :
    sortKey2 { c with isBest := true } = sortKey2 c := rfl

theorem markBest_find?_eq (l : List ContextActivity) :
    (markBest l).find? (fun c => c.okeyToTake && c.myScore.isSome)
      = (l.find? (fun c => c.okeyToTake && c.myScore.isSome)).map
          (fun c => { c with isBest := true }) := by
  induction l with
  | nil => rfl
  | cons c rest ih =>
    by_cases hc : (c.okeyToTake && c.myScore.isSome) = true
    · rw [markBest, if_pos hc,
        @List.find?_cons_of_pos _ (fun c => c.okeyToTake && c.myScore.isSome)
          { c with isBest := true } rest hc,
        @List.find?_cons_of_pos _ (fun c => c.okeyToTake && c.myScore.isSome)
          c rest hc]
      rfl
    · rw [markBest, if_neg hc,
        @List.find?_cons_of_neg _ (fun c => c.okeyToTake && c.myScore.isSome)
          c (markBest rest) hc,
        @List.find?_cons_of_neg _ (fun c => c.okeyToTake && c.myScore.isSome)
          c rest hc, ih]

theorem mem_markBest (l : List ContextActivity) (c : ContextActivity)
    (h : c ∈ markBest l) :
    c ∈ l ∨ ∃ c0, c0 ∈ l ∧ c = { c0 with isBest := true } := by
  induction l with
  | nil => simp [markBest] at h
  | cons a rest ih =>
    rw [markBest] at h
    by_cases ha : (a.okeyToTake && a.myScore.isSome) = true
    · rw [if_pos ha] at h
      rcases List.mem_cons.mp h with h1 | h1
      · right
        exact ⟨a, List.mem_cons_self _ _, h1⟩
      · left
        exact List.mem_cons_of_mem _ h1
    · rw [if_neg ha] at h
      rcases List.mem_cons.mp h with h1 | h1
      · left
        rw [h1]
        exact List.mem_cons_self _ _
      · rcases ih h1 with h2 | ⟨c0, hc0, he⟩
        · left
          exact List.mem_cons_of_mem _ h2
        · right
          exact ⟨c0, List.mem_cons_of_mem _ hc0, he⟩

end C3Helpers

section C3Helpers2

open OrchestrationGraphData

theorem evaluateFor_actData (sq : ℚ → ℚ) (g : OrchestrationGraphData)
    (j : ℕ) (position : ℤ) (c : ContextActivity)
    (h : evaluateFor sq g j position = some c) :
    g.lib.getActData j = some c.myActData := by
  unfold evaluateFor at h
  cases hA : g.lib.getActData j with
  | none =>
    rw [hA] at h
    exact absurd h (by simp)
  | some actData =>
    rw [hA] at h
    cases hq : g.quantities[j]? with
    | none =>
      rw [hq] at h
      exact absurd h (by simp)
    | some q =>
      cases hcs : g.currentStateAt position with
      | none =>
        rw [hq, hcs] at h
        exact absurd h (by simp)
      | some currentState =>
        cases hnp : g.nextPrecondAt position with
        | none =>
          rw [hq, hcs, hnp] at h
          exact absurd h (by simp)
        | some nextPrecond =>
          simp only [hq, hcs, hnp] at h
          split_ifs at h <;>
            exact congrArg (fun x => some x.myActData) (Option.some.inj h)

theorem setGapFocus_lib (sq : ℚ → ℚ) (g : OrchestrationGraphData)
    (gapIndex : ℤ) : (setGapFocus sq g gapIndex).lib = g.lib := by
  unfold setGapFocus
  split <;> rfl

theorem setGapFocus_quantities (sq : ℚ → ℚ) (g : OrchestrationGraphData)
    (gapIndex : ℤ) : (setGapFocus sq g gapIndex).quantities = g.quantities := by
  unfold setGapFocus
  split <;> rfl

theorem setGapFocus_timeline (sq : ℚ → ℚ) (g : OrchestrationGraphData)
    (gapIndex : ℤ) : (setGapFocus sq g gapIndex).listOfFixedInstancedAct
      = g.listOfFixedInstancedAct := by
  unfold setGapFocus
  split <;> rfl

theorem setGapFocus_gapFocus (sq : ℚ → ℚ) (g : OrchestrationGraphData)
    (gapIndex : ℤ) : (setGapFocus sq g gapIndex).gapFocus = some gapIndex := by
  unfold setGapFocus
  split <;> rfl

theorem setGapFocus_cands (sq : ℚ → ℚ) (g : OrchestrationGraphData)
    (gapIndex : ℤ) (h : ¬ gapIndex < 0) :
    (setGapFocus sq g gapIndex).currentListForSelectedGap
      = markBest
          (((List.range g.lib.getLength).filterMap
              (fun actIdx => evaluateFor sq g actIdx gapIndex)).insertionSort
            candBefore) := by
  unfold setGapFocus
  rw [if_neg h]

theorem autoAdd_eq_none (sq : ℚ → ℚ) (g : OrchestrationGraphData)
    (h : ¬ g.hardGapsCount = 0)
    (hf : (setGapFocus sq g ((worstGapFold sq g).1 : ℤ)).currentListForSelectedGap.find?
        (fun ctx => ctx.okeyToTake && ctx.myScore.isSome) = none) :
    autoAdd sq g
      = some (false, setGapFocus sq g ((worstGapFold sq g).1 : ℤ)) := by
  unfold autoAdd
  rw [if_neg h]
  show (match (setGapFocus sq g ((worstGapFold sq g).1 : ℤ)).currentListForSelectedGap.find?
      (fun ctx => ctx.okeyToTake && ctx.myScore.isSome) with
    | none => some (false, setGapFocus sq g ((worstGapFold sq g).1 : ℤ))
    | some bestActivity =>
      insert sq (setGapFocus sq g ((worstGapFold sq g).1 : ℤ))
        bestActivity.myActData.idx ((worstGapFold sq g).1 : ℤ) none none)
    = some (false, setGapFocus sq g ((worstGapFold sq g).1 : ℤ))
  rw [hf]

theorem autoAdd_eq_some (sq : ℚ → ℚ) (g : OrchestrationGraphData)
    (best : ContextActivity) (h : ¬ g.hardGapsCount = 0)
    (hf : (setGapFocus sq g ((worstGapFold sq g).1 : ℤ)).currentListForSelectedGap.find?
        (fun ctx => ctx.okeyToTake && ctx.myScore.isSome) = some best) :
    autoAdd sq g
      = insert sq (setGapFocus sq g ((worstGapFold sq g).1 : ℤ))
          best.myActData.idx ((worstGapFold sq g).1 : ℤ) none none := by
  unfold autoAdd
  rw [if_neg h]
  show (match (setGapFocus sq g ((worstGapFold sq g).1 : ℤ)).currentListForSelectedGap.find?
      (fun ctx => ctx.okeyToTake && ctx.myScore.isSome) with
    | none => some (false, setGapFocus sq g ((worstGapFold sq g).1 : ℤ))
    | some bestActivity =>
      insert sq (setGapFocus sq g ((worstGapFold sq g).1 : ℤ))
        bestActivity.myActData.idx ((worstGapFold sq g).1 : ℤ) none none)
    = insert sq (setGapFocus sq g ((worstGapFold sq g).1 : ℤ))
        best.myActData.idx ((worstGapFold sq g).1 : ℤ) none none
  rw [hf]

end C3Helpers2

/-- C3: `autoAdd` (autoFillWorstGap) fails with no state change when there are
no hard gaps.  Otherwise, over a consistent gap cache, the selected position
is a member of `gapPositions` whose recomputed forward distance is largest,
with exact ties broken in favour of the earliest (lowest) position; that gap
is focused; when no takeable candidate with a defined score exists the call
fails with the focused state and an unchanged timeline; and otherwise the
top-ranked takeable scored candidate (its score maximal among all takeable
scored candidates) has its template inserted at the selected position. -/
theorem autoAdd_worst_gap_selection (sq : ℚ → ℚ) (g : OrchestrationGraphData)
    (hG : GapConsistent sq g) (hWf : LibWF g.lib)
    (hQ : g.quantities.length = g.lib.getLength) :
    (g.hardGapsCount = 0 →
      OrchestrationGraphData.autoAdd sq g = some (false, g)) ∧
    (∀ w, g.hardGapsCount ≠ 0 →
      w = (OrchestrationGraphData.worstGapFold sq g).1 →
      w ∈ g.hardGapsList ∧
      (∀ p ∈ g.hardGapsList, OrchestrationGraphData.gapDistance sq g p
        ≤ OrchestrationGraphData.gapDistance sq g w) ∧
      (∀ p ∈ g.hardGapsList, OrchestrationGraphData.gapDistance sq g p
          = OrchestrationGraphData.gapDistance sq g w → w ≤ p) ∧
      (∀ g1, g1 = OrchestrationGraphData.setGapFocus sq g (w : ℤ) →
        g1.gapFocus = some (w : ℤ) ∧
        g1.listOfFixedInstancedAct = g.listOfFixedInstancedAct ∧
        (g1.currentListForSelectedGap.find?
            (fun ctx => ctx.okeyToTake && ctx.myScore.isSome) = none →
          OrchestrationGraphData.autoAdd sq g = some (false, g1)) ∧
        (∀ best, g1.currentListForSelectedGap.find?
            (fun ctx => ctx.okeyToTake && ctx.myScore.isSome) = some best →
          best.okeyToTake = true ∧ best.myScore.isSome = true ∧
          (∀ c ∈ g1.currentListForSelectedGap, c.okeyToTake = true →
            c.myScore.isSome = true →
            OrchestrationGraphData.sortKey2 c
              ≤ OrchestrationGraphData.sortKey2 best) ∧
          ∃ g2, OrchestrationGraphData.autoAdd sq g = some (true, g2) ∧
            g2.listOfFixedInstancedAct.map entryCore
              = (g.listOfFixedInstancedAct.map entryCore).insertIdx w
                  (best.myActData, best.myActData.defT,
                    best.myActData.defPlane)))) := by
  constructor
  · intro h0
    unfold OrchestrationGraphData.autoAdd
    rw [if_pos h0]
  · intro w hcount hw
    have hr : OrchestrationGraphData.worstGapFold sq g
        = g.hardGapsList.foldl
            (fun a p => if a.2 < OrchestrationGraphData.gapDistance sq g p
              then (p, OrchestrationGraphData.gapDistance sq g p) else a)
            ((0 : ℕ), (0 : ℚ)) := rfl
    obtain ⟨_, hbound, hdisj, hearly⟩ :=
      foldl_worst_spec (OrchestrationGraphData.gapDistance sq g)
        g.hardGapsList ((0 : ℕ), (0 : ℚ))
        (OrchestrationGraphData.worstGapFold sq g) hr
    have hne : g.hardGapsList ≠ [] := by
      intro hnil
      exact hcount (by simp [hG.2, hnil])
    obtain ⟨p0, hp0⟩ := List.exists_mem_of_ne_nil _ hne
    have hthresh : ∀ p ∈ g.hardGapsList,
        THRESHOLD < OrchestrationGraphData.gapDistance sq g p := by
      intro p hp
      rw [hG.1] at hp
      exact of_decide_eq_true (List.mem_filter.mp hp).2
    have hrne : OrchestrationGraphData.worstGapFold sq g
        ≠ ((0 : ℕ), (0 : ℚ)) := by
      intro he
      have h1 := hbound p0 hp0
      rw [he] at h1
      have h2 := hthresh p0 hp0
      have h3 : (0 : ℚ) < THRESHOLD := by norm_num [THRESHOLD]
      exact absurd (lt_trans h3 h2) (not_lt.mpr h1)
    rcases hdisj with he | ⟨hm, h2, _⟩
    · exact absurd he hrne
    subst hw
    refine ⟨hm, ?_, ?_, ?_⟩
    · intro p hp
      rw [← h2]
      exact hbound p hp
    · intro p hp hdp
      have hpw : g.hardGapsList.Pairwise (· < ·) := by
        rw [hG.1]
        exact (List.pairwise_lt_range _).filter _
      rcases hearly hpw p hp (by rw [hdp]; exact h2.symm) with hle | he
      · exact hle
      · exact absurd he hrne
    · intro g1 hg1
      have hwle : (OrchestrationGraphData.worstGapFold sq g).1
          ≤ g.listOfFixedInstancedAct.length := by
        have hm2 := hm
        rw [hG.1] at hm2
        have h4 := List.mem_range.mp (List.mem_filter.mp hm2).1
        omega
      have hpos0 : ¬ (((OrchestrationGraphData.worstGapFold sq g).1 : ℤ) < 0) := by
        omega
      subst hg1
      refine ⟨setGapFocus_gapFocus sq g _, setGapFocus_timeline sq g _, ?_, ?_⟩
      · intro hfind
        exact autoAdd_eq_none sq g hcount hfind
      · intro best hfind
        have hpredb := List.find?_some hfind
        have hpredb2 := hpredb
        simp only [Bool.and_eq_true] at hpredb2
        obtain ⟨hok, hsc⟩ := hpredb2
        have hcands := setGapFocus_cands sq g
          ((OrchestrationGraphData.worstGapFold sq g).1 : ℤ) hpos0
        have hfind2 := hfind
        rw [hcands, markBest_find?_eq] at hfind2
        rcases Option.map_eq_some'.mp hfind2 with ⟨best0, hf0, hmark⟩
        have hmem0 := List.mem_of_find?_eq_some hf0
        have hmemE := (List.perm_insertionSort
          OrchestrationGraphData.candBefore _).mem_iff.mp hmem0
        rcases List.mem_filterMap.mp hmemE with ⟨j, hjr, hje⟩
        have hAj := evaluateFor_actData sq g j _ best0 hje
        have hidxj : best0.myActData.idx = j := hWf j best0.myActData hAj
        have hjlt : j < g.lib.getLength := List.mem_range.mp hjr
        have hbestA : best.myActData = best0.myActData := by
          rw [← hmark]
        have hsorted : (((List.range g.lib.getLength).filterMap
            (fun actIdx => OrchestrationGraphData.evaluateFor sq g actIdx
              ((OrchestrationGraphData.worstGapFold sq g).1 : ℤ))).insertionSort
              OrchestrationGraphData.candBefore).Pairwise
            OrchestrationGraphData.candBefore :=
          List.sorted_insertionSort OrchestrationGraphData.candBefore _
        have hs2 : OrchestrationGraphData.sortKey2 best
            = OrchestrationGraphData.sortKey2 best0 := by
          rw [← hmark]
          exact sortKey2_mark best0
        refine ⟨hok, hsc, ?_, ?_⟩
        · intro c hc hcok hcsc
          have hc2 := hc
          rw [hcands] at hc2
          rw [hs2]
          rcases mem_markBest _ c hc2 with hcs | ⟨c0, hc0, hceq⟩
          · exact find_sorted_max _ hsorted best0 hf0 c hcs
              (by rw [hcok, hcsc]; rfl)
          · have hks : OrchestrationGraphData.sortKey2 c
                = OrchestrationGraphData.sortKey2 c0 := by
              rw [hceq]
              exact sortKey2_mark c0
            have hok0 : c0.okeyToTake = true := by
              rw [← okeyToTake_mark c0, ← hceq]
              exact hcok
            have hsc0 : c0.myScore.isSome = true := by
              rw [← myScore_mark c0, ← hceq]
              exact hcsc
            rw [hks]
            exact find_sorted_max _ hsorted best0 hf0 c0 hc0
              (by rw [hok0, hsc0]; rfl)
        · have hA1 : (OrchestrationGraphData.setGapFocus sq g
              ((OrchestrationGraphData.worstGapFold sq g).1 : ℤ)).lib.getActData
                best.myActData.idx = some best.myActData := by
            rw [setGapFocus_lib, hbestA, hidxj]
            exact hAj
          have hQ1 : best.myActData.idx
              < (OrchestrationGraphData.setGapFocus sq g
                  ((OrchestrationGraphData.worstGapFold sq g).1 : ℤ)).quantities.length := by
            rw [setGapFocus_quantities, hQ, hbestA, hidxj]
            exact hjlt
          obtain ⟨inst, hcore, hins⟩ := insert_spec sq
            (OrchestrationGraphData.setGapFocus sq g
              ((OrchestrationGraphData.worstGapFold sq g).1 : ℤ))
            best.myActData.idx
            ((OrchestrationGraphData.worstGapFold sq g).1 : ℤ) none none
            best.myActData hA1 hQ1 (by omega)
          refine ⟨_, by rw [autoAdd_eq_some sq g best hcount hfind]; exact hins, ?_⟩
          rw [reEvaluateData_map_entryCore]
          show ((OrchestrationGraphData.setGapFocus sq g
              ((OrchestrationGraphData.worstGapFold sq g).1 : ℤ)).listOfFixedInstancedAct.insertIdx
              (min (((OrchestrationGraphData.worstGapFold sq g).1 : ℤ)).toNat
                (OrchestrationGraphData.setGapFocus sq g
                  ((OrchestrationGraphData.worstGapFold sq g).1 : ℤ)).listOfFixedInstancedAct.length)
              inst).map entryCore
            = (g.listOfFixedInstancedAct.map entryCore).insertIdx
                (OrchestrationGraphData.worstGapFold sq g).1
                (best.myActData, best.myActData.defT, best.myActData.defPlane)
          rw [map_insertIdx_comm, hcore, setGapFocus_timeline,
            Int.toNat_natCast, min_eq_left hwle]
          rfl

/-- Witness for the `autoAdd` selection theorem: the fresh engine `eng0` has a
consistent gap cache with one hard gap, and there the selected position is a
member of `gapPositions` with maximal recomputed distance. -/
theorem autoAdd_worst_gap_selection_witness :
    eng0.hardGapsCount ≠ 0 ∧
    (OrchestrationGraphData.worstGapFold sqW eng0).1 ∈ eng0.hardGapsList ∧
    ∀ p ∈ eng0.hardGapsList,
      OrchestrationGraphData.gapDistance sqW eng0 p
        ≤ OrchestrationGraphData.gapDistance sqW eng0
            (OrchestrationGraphData.worstGapFold sqW eng0).1 := by
  have hG : GapConsistent sqW eng0 := by
    constructor
    · norm_num [eng0, OrchestrationGraphData.init, lib1, act0,
        OrchestrationGraphData.gapDistance, OrchestrationGraphData.gapDistanceCalc,
        pVal.distance_onlyForward, pVal.distance2_onlyForward, sqW, THRESHOLD,
        List.range_succ]
    · norm_num [eng0, OrchestrationGraphData.init]
  have hWf : LibWF eng0.lib := by
    intro i a ha
    cases i with
    | zero =>
      simp [eng0, OrchestrationGraphData.init, lib1] at ha
      rw [← ha]
      rfl
    | succ n => simp [eng0, OrchestrationGraphData.init, lib1] at ha
  have hQ : eng0.quantities.length = eng0.lib.getLength := by
    norm_num [eng0, OrchestrationGraphData.init, lib1, Library.getLength]
  have hcount : eng0.hardGapsCount ≠ 0 := by
    norm_num [eng0, OrchestrationGraphData.init]
  obtain ⟨h1, h2, _⟩ := (autoAdd_worst_gap_selection sqW eng0 hG hWf hQ).2
    (OrchestrationGraphData.worstGapFold sqW eng0).1 hcount rfl
  exact ⟨hcount, h1, h2⟩
